import Mathlib

/-!
Fixed-point 2D affine transforms (gtransform).

A shallow embedding of `math_fixed.h`, `gtypes.h`, `gtransform.h` and
`gtransform.c`.

Modelling conventions.

* A C integer is a Lean `Int`; every conversion to a C integer type of width
  `w` is an explicit two's-complement narrowing (`wrap16`, `wrap32`, `wrap64`).
  `int` is 32 bits wide (the ARM target of the library) and signed arithmetic
  wraps.
* `>>` on a signed operand is the arithmetic shift (`Int.shiftRight`), which
  rounds toward negative infinity.
* `/` and `%` of C truncate toward zero (`Int.tdiv`, `Int.tmod`).
* The unions `Fixed_S16_3` and `Fixed_S32_16` are represented by their
  `raw_value`; the bit-field members `integer` and `fraction` are views of it.
* A `GTransform *` is an `Option L`: `none` is `NULL`, `some l` points to the
  object stored at location `l` of a memory `L → GTransform`.  Two pointers
  alias exactly when they are equal.  The mutators are memory transformers that
  perform the reads and writes of the C function in program order.
-/

namespace GTransformSpec

/-! Machine integers -/

/-- Narrowing of an integer to `int16_t`. -/
def wrap16 (x : Int) : Int := (x + 32768) % 65536 - 32768

/-- Narrowing of an integer to `int32_t` (also `int` of the target). -/
def wrap32 (x : Int) : Int := (x + 2147483648) % 4294967296 - 2147483648

/-- Narrowing of an integer to `int64_t`. -/
def wrap64 (x : Int) : Int :=
  (x + 9223372036854775808) % 18446744073709551616 - 9223372036854775808

/-- The operator `<<` on an `int` operand (before narrowing): multiplication by
a power of two. -/
def shl (x : Int) (n : Nat) : Int := x * 2 ^ n

/-- The values of `int16_t`. -/
def isInt16 (x : Int) : Prop := -32768 ≤ x ∧ x < 32768

/-- The values of `int32_t`. -/
def isInt32 (x : Int) : Prop := -2147483648 ≤ x ∧ x < 2147483648

instance (x : Int) : Decidable (isInt16 x) := by unfold isInt16; infer_instance

instance (x : Int) : Decidable (isInt32 x) := by unfold isInt32; infer_instance

/-! math_fixed.h -/

/-- The union `Fixed_S16_3`: 1 sign bit, 12 integer bits, 3 fraction bits. -/
structure Fixed_S16_3 where
  raw_value : Int
deriving DecidableEq, Repr

/-- The union `Fixed_S32_16`: 1 sign bit, 15 integer bits, 16 fraction bits. -/
structure Fixed_S32_16 where
  raw_value : Int
deriving DecidableEq, Repr

/-- The constant `FIXED_S32_16_PRECISION`. -/
def FIXED_S32_16_PRECISION : Nat := 16

/-- The constant `FIXED_S16_3_PRECISION`. -/
def FIXED_S16_3_PRECISION : Nat := 3

/-- The constant `FIXED_S16_3_ONE`, `{ .integer = 1, .fraction = 0 }`: the
integer field sits above the three fraction bits. -/
def FIXED_S16_3_ONE : Fixed_S16_3 := ⟨1 * 8 + 0⟩

/-- The bit-field `integer:13` of `Fixed_S16_3`: the signed 13-bit value held in
bits 3 to 15 of the raw value. -/
def Fixed_S16_3.integer (v : Fixed_S16_3) : Int :=
  (v.raw_value / 8 + 4096) % 8192 - 4096

/-- The bit-field `fraction:3` of `Fixed_S16_3`: the unsigned value held in bits
0 to 2 of the raw value. -/
def Fixed_S16_3.fraction (v : Fixed_S16_3) : Int :=
  v.raw_value % 8

/-- The function `Fixed_S16_3_add3`: the sum is formed in `int` and narrowed by
the initialiser of `raw_value`. -/
def Fixed_S16_3_add3 (a b c : Fixed_S16_3) : Fixed_S16_3 :=
  ⟨wrap16 (wrap32 (wrap32 (a.raw_value + b.raw_value) + c.raw_value))⟩

/-- The function `Fixed_S32_16_mul`: both operands are widened to `int64_t`,
multiplied, shifted right by 16 and narrowed to `int32_t`. -/
def Fixed_S32_16_mul (a b : Fixed_S32_16) : Fixed_S32_16 :=
  ⟨wrap32 (wrap64 (wrap64 a.raw_value * wrap64 b.raw_value) >>> FIXED_S32_16_PRECISION)⟩

/-- The function `Fixed_S32_16_add`. -/
def Fixed_S32_16_add (a b : Fixed_S32_16) : Fixed_S32_16 :=
  ⟨wrap32 (a.raw_value + b.raw_value)⟩

/-- The function `Fixed_S32_16_add3`: `+` associates to the left. -/
def Fixed_S32_16_add3 (a b c : Fixed_S32_16) : Fixed_S32_16 :=
  ⟨wrap32 (wrap32 (a.raw_value + b.raw_value) + c.raw_value)⟩

/-- The function `Fixed_S16_3_S32_16_mul`: `a.raw_value` is promoted to `int`,
the product and the shift are computed in `int`, and the initialiser narrows
the result to `int16_t`. -/
def Fixed_S16_3_S32_16_mul (a : Fixed_S16_3) (b : Fixed_S32_16) : Fixed_S16_3 :=
  ⟨wrap16 (wrap32 (a.raw_value * b.raw_value) >>> FIXED_S32_16_PRECISION)⟩

/-! gtypes.h -/

/-- The constant `GPOINT_PRECISE_MAX`. -/
def GPOINT_PRECISE_MAX : Int := 0x2000

/-- The constant `GPOINT_PRECISE_PRECISION`. -/
def GPOINT_PRECISE_PRECISION : Nat := FIXED_S16_3_PRECISION

/-- The struct `GPoint` of the host SDK: two `int16_t` coordinates. -/
structure GPoint where
  x : Int
  y : Int
deriving DecidableEq, Repr

/-- The struct `GPointPrecise`. -/
structure GPointPrecise where
  x : Fixed_S16_3
  y : Fixed_S16_3
deriving DecidableEq, Repr

/-- The macro `GPointPreciseFromGPoint`: `%` and `<<` are computed in `int`,
the initialiser narrows to `int16_t`. -/
def GPointPreciseFromGPoint (point : GPoint) : GPointPrecise :=
  ⟨⟨wrap16 (wrap32 (shl (Int.tmod point.x GPOINT_PRECISE_MAX) GPOINT_PRECISE_PRECISION))⟩,
   ⟨wrap16 (wrap32 (shl (Int.tmod point.y GPOINT_PRECISE_MAX) GPOINT_PRECISE_PRECISION))⟩⟩

/-- The macro `GPointFromGPointPrecise`: `>>` is computed in `int`, the
initialiser of `GPoint` narrows to `int16_t`. -/
def GPointFromGPointPrecise (pointP : GPointPrecise) : GPoint :=
  ⟨wrap16 (wrap32 (pointP.x.raw_value >>> GPOINT_PRECISE_PRECISION)),
   wrap16 (wrap32 (pointP.y.raw_value >>> GPOINT_PRECISE_PRECISION))⟩

/-- The struct `GVector`: two `int16_t` components. -/
structure GVector where
  dx : Int
  dy : Int
deriving DecidableEq, Repr

/-- The constant `GVECTOR_PRECISE_MAX`. -/
def GVECTOR_PRECISE_MAX : Int := GPOINT_PRECISE_MAX

/-- The constant `GVECTOR_PRECISE_PRECISION`. -/
def GVECTOR_PRECISE_PRECISION : Nat := GPOINT_PRECISE_PRECISION

/-- The struct `GVectorPrecise`. -/
structure GVectorPrecise where
  dx : Fixed_S16_3
  dy : Fixed_S16_3
deriving DecidableEq, Repr

/-- The macro `GVectorPreciseFromGVector`. -/
def GVectorPreciseFromGVector (vector : GVector) : GVectorPrecise :=
  ⟨⟨wrap16 (wrap32 (shl (Int.tmod vector.dx GVECTOR_PRECISE_MAX) GVECTOR_PRECISE_PRECISION))⟩,
   ⟨wrap16 (wrap32 (shl (Int.tmod vector.dy GVECTOR_PRECISE_MAX) GVECTOR_PRECISE_PRECISION))⟩⟩

/-- The macro `GVectorFromGVectorPrecise`. -/
def GVectorFromGVectorPrecise (vectorP : GVectorPrecise) : GVector :=
  ⟨wrap16 (wrap32 (vectorP.dx.raw_value >>> GVECTOR_PRECISE_PRECISION)),
   wrap16 (wrap32 (vectorP.dy.raw_value >>> GVECTOR_PRECISE_PRECISION))⟩

/-- The type `GTransformNumber`. -/
abbrev GTransformNumber := Fixed_S32_16

/-- The struct `GTransform`: the matrix `[a b 0; c d 0; tx ty 1]`. -/
structure GTransform where
  a : GTransformNumber
  b : GTransformNumber
  c : GTransformNumber
  d : GTransformNumber
  tx : GTransformNumber
  ty : GTransformNumber
deriving DecidableEq, Repr

/-- The six coefficients of a transform are `int32_t` values. -/
def GTransform.valid (t : GTransform) : Prop :=
  isInt32 t.a.raw_value ∧ isInt32 t.b.raw_value ∧ isInt32 t.c.raw_value ∧
  isInt32 t.d.raw_value ∧ isInt32 t.tx.raw_value ∧ isInt32 t.ty.raw_value

instance (t : GTransform) : Decidable t.valid := by
  unfold GTransform.valid; infer_instance

/-! gtransform.h: constructors -/

/-- The macro `GTransformNumberZero`. -/
def GTransformNumberZero : GTransformNumber := ⟨0 * 65536 + 0⟩

/-- The macro `GTransformNumberOne`. -/
def GTransformNumberOne : GTransformNumber := ⟨1 * 65536 + 0⟩

/-- The macro `GTransformNumberFromNumber` at an argument of type `int`. -/
def GTransformNumberFromNumber (x : Int) : GTransformNumber :=
  ⟨wrap32 (wrap32 x * GTransformNumberOne.raw_value)⟩

/-- The macro `GTransformIdentity`. -/
def GTransformIdentity : GTransform :=
  { a := GTransformNumberOne, b := GTransformNumberZero,
    c := GTransformNumberZero, d := GTransformNumberOne,
    tx := GTransformNumberZero, ty := GTransformNumberZero }

/-- The macro `GTransformScale`. -/
def GTransformScale (sx sy : GTransformNumber) : GTransform :=
  { a := sx, b := GTransformNumberZero,
    c := GTransformNumberZero, d := sy,
    tx := GTransformNumberZero, ty := GTransformNumberZero }

/-- The macro `GTransformTranslation`. -/
def GTransformTranslation (tx_v ty_v : GTransformNumber) : GTransform :=
  { a := GTransformNumberOne, b := GTransformNumberZero,
    c := GTransformNumberZero, d := GTransformNumberOne,
    tx := tx_v, ty := ty_v }

/-! Memory -/

/-- The assignment `p->a = v`. -/
def set_a {L : Type} [DecidableEq L] (m : L → GTransform) (p : L) (v : GTransformNumber) :
    L → GTransform :=
  Function.update m p { m p with a := v }

/-- The assignment `p->b = v`. -/
def set_b {L : Type} [DecidableEq L] (m : L → GTransform) (p : L) (v : GTransformNumber) :
    L → GTransform :=
  Function.update m p { m p with b := v }

/-- The assignment `p->c = v`. -/
def set_c {L : Type} [DecidableEq L] (m : L → GTransform) (p : L) (v : GTransformNumber) :
    L → GTransform :=
  Function.update m p { m p with c := v }

/-- The assignment `p->d = v`. -/
def set_d {L : Type} [DecidableEq L] (m : L → GTransform) (p : L) (v : GTransformNumber) :
    L → GTransform :=
  Function.update m p { m p with d := v }

/-- The assignment `p->tx = v`. -/
def set_tx {L : Type} [DecidableEq L] (m : L → GTransform) (p : L) (v : GTransformNumber) :
    L → GTransform :=
  Function.update m p { m p with tx := v }

/-- The assignment `p->ty = v`. -/
def set_ty {L : Type} [DecidableEq L] (m : L → GTransform) (p : L) (v : GTransformNumber) :
    L → GTransform :=
  Function.update m p { m p with ty := v }

/-! gtransform.c: modifying transforms -/

/-- The function `gtransform_concat`: twelve products are read from `t1` and
`t2`, then the six fields of `t_new` are written in order; `t2->tx` and
`t2->ty` are read between the writes. -/
def gtransform_concat {L : Type} [DecidableEq L] (m : L → GTransform)
    (t_new t1 t2 : Option L) : L → GTransform :=
  match t_new, t1, t2 with
  | some o, some p1, some p2 =>
    let a_a := Fixed_S32_16_mul (m p1).a (m p2).a
    let b_c := Fixed_S32_16_mul (m p1).b (m p2).c
    let a_b := Fixed_S32_16_mul (m p1).a (m p2).b
    let b_d := Fixed_S32_16_mul (m p1).b (m p2).d
    let c_a := Fixed_S32_16_mul (m p1).c (m p2).a
    let d_c := Fixed_S32_16_mul (m p1).d (m p2).c
    let c_b := Fixed_S32_16_mul (m p1).c (m p2).b
    let d_d := Fixed_S32_16_mul (m p1).d (m p2).d
    let tx_a := Fixed_S32_16_mul (m p1).tx (m p2).a
    let ty_c := Fixed_S32_16_mul (m p1).ty (m p2).c
    let tx_b := Fixed_S32_16_mul (m p1).tx (m p2).b
    let ty_d := Fixed_S32_16_mul (m p1).ty (m p2).d
    let m1 := set_a m o (Fixed_S32_16_add a_a b_c)
    let m2 := set_b m1 o (Fixed_S32_16_add a_b b_d)
    let m3 := set_c m2 o (Fixed_S32_16_add c_a d_c)
    let m4 := set_d m3 o (Fixed_S32_16_add c_b d_d)
    let m5 := set_tx m4 o (Fixed_S32_16_add3 tx_a ty_c (m4 p2).tx)
    set_ty m5 o (Fixed_S32_16_add3 tx_b ty_d (m5 p2).ty)
  | _, _, _ => m

/-- The composition formula of the specification, on values: `t1 · t2` in the
row-vector convention. -/
def concat_spec (t1 t2 : GTransform) : GTransform :=
  { a := Fixed_S32_16_add (Fixed_S32_16_mul t1.a t2.a) (Fixed_S32_16_mul t1.b t2.c),
    b := Fixed_S32_16_add (Fixed_S32_16_mul t1.a t2.b) (Fixed_S32_16_mul t1.b t2.d),
    c := Fixed_S32_16_add (Fixed_S32_16_mul t1.c t2.a) (Fixed_S32_16_mul t1.d t2.c),
    d := Fixed_S32_16_add (Fixed_S32_16_mul t1.c t2.b) (Fixed_S32_16_mul t1.d t2.d),
    tx := Fixed_S32_16_add3 (Fixed_S32_16_mul t1.tx t2.a) (Fixed_S32_16_mul t1.ty t2.c) t2.tx,
    ty := Fixed_S32_16_add3 (Fixed_S32_16_mul t1.tx t2.b) (Fixed_S32_16_mul t1.ty t2.d) t2.ty }

/-- The locations of a call `gtransform_concat(&out, &t1, &t2)` on three
distinct objects. -/
inductive Slot where
  | out
  | lhs
  | rhs
deriving DecidableEq, Repr

/-- The value left in `out` by `gtransform_concat(&out, &t1, &t2)` when `out`,
`t1` and `t2` are three distinct objects and `out` holds `init` before. -/
def concat_fresh (init t1 t2 : GTransform) : GTransform :=
  gtransform_concat
    (fun l => match l with
      | Slot.out => init
      | Slot.lhs => t1
      | Slot.rhs => t2)
    (some Slot.out) (some Slot.lhs) (some Slot.rhs) Slot.out

/-- The function `gtransform_scale`. -/
def gtransform_scale {L : Type} [DecidableEq L] (m : L → GTransform)
    (t_new t : Option L) (sx sy : GTransformNumber) : L → GTransform :=
  match t_new, t with
  | some o, some p =>
    let m0 := if o ≠ p then Function.update m o (m p) else m
    let m1 := set_a m0 o (Fixed_S32_16_mul sx (m0 p).a)
    let m2 := set_b m1 o (Fixed_S32_16_mul sx (m1 p).b)
    let m3 := set_c m2 o (Fixed_S32_16_mul sy (m2 p).c)
    set_d m3 o (Fixed_S32_16_mul sy (m3 p).d)
  | _, _ => m

/-- The function `gtransform_translate`. -/
def gtransform_translate {L : Type} [DecidableEq L] (m : L → GTransform)
    (t_new t : Option L) (tx ty : GTransformNumber) : L → GTransform :=
  match t_new, t with
  | some o, some p =>
    let m0 := if o ≠ p then Function.update m o (m p) else m
    let tx_a := Fixed_S32_16_mul tx (m0 p).a
    let ty_c := Fixed_S32_16_mul ty (m0 p).c
    let tx_b := Fixed_S32_16_mul tx (m0 p).b
    let ty_d := Fixed_S32_16_mul ty (m0 p).d
    let m1 := set_tx m0 o (Fixed_S32_16_add3 tx_a ty_c (m0 p).tx)
    set_ty m1 o (Fixed_S32_16_add3 tx_b ty_d (m1 p).ty)
  | _, _ => m

/-! gtransform.c: creating transforms -/

/-- The trigonometric interface of the host SDK that `gtransform_init_rotation`
uses: the two lookup functions and the ratio their results are scaled by. -/
structure Trig where
  cos_lookup : Int → Int
  sin_lookup : Int → Int
  TRIG_MAX_RATIO : Int

/-- The function `gtransform_init_rotation`; the divisor is the SDK constant
`TRIG_MAX_RATIO`.  The lookups return `int32_t`, the products and
quotients are `int64_t`, the initialisers of `raw_value` narrow to `int32_t`. -/
def gtransform_init_rotation (trig : Trig) (angle : Int) : GTransform :=
  if angle ≠ 0 then
    let cosine := wrap32 (trig.cos_lookup angle)
    let sine := wrap32 (trig.sin_lookup angle)
    let cosine_val :=
      wrap64 (Int.tdiv (wrap64 (wrap64 cosine * wrap64 GTransformNumberOne.raw_value))
        (wrap64 trig.TRIG_MAX_RATIO))
    let sine_val :=
      wrap64 (Int.tdiv (wrap64 (wrap64 sine * wrap64 GTransformNumberOne.raw_value))
        (wrap64 trig.TRIG_MAX_RATIO))
    let a : GTransformNumber := ⟨wrap32 cosine_val⟩
    let b : GTransformNumber := ⟨wrap32 (wrap64 (-sine_val))⟩
    let c : GTransformNumber := ⟨wrap32 sine_val⟩
    let d : GTransformNumber := ⟨wrap32 cosine_val⟩
    { a := a, b := b, c := c, d := d, tx := GTransformNumberZero, ty := GTransformNumberZero }
  else
    GTransformIdentity

/-- The locations visible inside `gtransform_rotate`: the objects of the caller
and the local variable `tR`. -/
inductive RotateFrame (L : Type) where
  | caller (l : L)
  | tR
deriving DecidableEq

/-- The function `gtransform_rotate`: the rotation matrix is built in the local
`tR` and `gtransform_concat(t_new, &tR, t)` is run on the memory extended by
it. -/
def gtransform_rotate {L : Type} [DecidableEq L] (trig : Trig) (m : L → GTransform)
    (t_new t : Option L) (angle : Int) : L → GTransform :=
  match t_new, t with
  | some o, some p =>
    let tR := gtransform_init_rotation trig angle
    let m0 : RotateFrame L → GTransform := fun l =>
      match l with
      | RotateFrame.caller q => m q
      | RotateFrame.tR => tR
    let m1 := gtransform_concat m0 (some (RotateFrame.caller o)) (some RotateFrame.tR)
      (some (RotateFrame.caller p))
    fun q => m1 (RotateFrame.caller q)
  | _, _ => m

/-! gtransform.c: applying transforms -/

/-- The function `gpoint_transform`; the transform is only read, so the pointer
argument is the optional value it points to. -/
def gpoint_transform (point : GPoint) (t : Option GTransform) : GPointPrecise :=
  let pointP := GPointPreciseFromGPoint point
  match t with
  | none => pointP
  | some t =>
    let x_a := Fixed_S16_3_S32_16_mul pointP.x t.a
    let y_c := Fixed_S16_3_S32_16_mul pointP.y t.c
    let one_tx := Fixed_S16_3_S32_16_mul FIXED_S16_3_ONE t.tx
    let x_b := Fixed_S16_3_S32_16_mul pointP.x t.b
    let y_d := Fixed_S16_3_S32_16_mul pointP.y t.d
    let one_ty := Fixed_S16_3_S32_16_mul FIXED_S16_3_ONE t.ty
    let sum_x := Fixed_S16_3_add3 x_a y_c one_tx
    let sum_y := Fixed_S16_3_add3 x_b y_d one_ty
    ⟨⟨wrap16 sum_x.raw_value⟩, ⟨wrap16 sum_y.raw_value⟩⟩

/-- The function `gvector_transform`. -/
def gvector_transform (vector : GVector) (t : Option GTransform) : GVectorPrecise :=
  let vectorP := GVectorPreciseFromGVector vector
  match t with
  | none => vectorP
  | some t =>
    let x_a := Fixed_S16_3_S32_16_mul vectorP.dx t.a
    let y_c := Fixed_S16_3_S32_16_mul vectorP.dy t.c
    let one_tx := Fixed_S16_3_S32_16_mul FIXED_S16_3_ONE t.tx
    let x_b := Fixed_S16_3_S32_16_mul vectorP.dx t.b
    let y_d := Fixed_S16_3_S32_16_mul vectorP.dy t.d
    let one_ty := Fixed_S16_3_S32_16_mul FIXED_S16_3_ONE t.ty
    let sum_x := Fixed_S16_3_add3 x_a y_c one_tx
    let sum_y := Fixed_S16_3_add3 x_b y_d one_ty
    ⟨⟨wrap16 sum_x.raw_value⟩, ⟨wrap16 sum_y.raw_value⟩⟩

/-! gtransform.c: evaluating transforms -/

/-- The four bytes of an `int32_t` object in two's complement, least
significant first. -/
def int32_bytes (x : Int) : List Int :=
  [x % 256, x / 256 % 256, x / 65536 % 256, x / 16777216 % 256]

/-- The object representation of the packed struct `GTransform`: the bytes of
the six fields in declaration order, without padding. -/
def GTransform.bytes (t : GTransform) : List Int :=
  int32_bytes t.a.raw_value ++ int32_bytes t.b.raw_value ++ int32_bytes t.c.raw_value ++
  int32_bytes t.d.raw_value ++ int32_bytes t.tx.raw_value ++ int32_bytes t.ty.raw_value

/-- The value of `sizeof(GTransform)`. -/
def sizeof_GTransform : Nat := 24

/-- The library function `memcmp` on the first `n` bytes of two objects: 0 when
they agree, otherwise the sign of the first difference. -/
def memcmp : List Int → List Int → Nat → Int
  | x :: xs, y :: ys, n + 1 => if x < y then -1 else if y < x then 1 else memcmp xs ys n
  | _, _, _ => 0

/-- The function `gtransform_is_identity`. -/
def gtransform_is_identity (t : Option GTransform) : Bool :=
  match t with
  | none => false
  | some t =>
    let t_c := GTransformIdentity
    if memcmp t.bytes t_c.bytes sizeof_GTransform = 0 then true else false

/-- The function `gtransform_is_only_scale`. -/
def gtransform_is_only_scale (t : Option GTransform) : Bool :=
  match t with
  | none => false
  | some t =>
    if t.b.raw_value = GTransformNumberZero.raw_value ∧
        t.c.raw_value = GTransformNumberZero.raw_value ∧
        t.tx.raw_value = GTransformNumberZero.raw_value ∧
        t.ty.raw_value = GTransformNumberZero.raw_value then true
    else false

/-- The function `gtransform_is_only_translation`. -/
def gtransform_is_only_translation (t : Option GTransform) : Bool :=
  match t with
  | none => false
  | some t =>
    if t.a.raw_value = GTransformNumberOne.raw_value ∧
        t.b.raw_value = GTransformNumberZero.raw_value ∧
        t.c.raw_value = GTransformNumberZero.raw_value ∧
        t.d.raw_value = GTransformNumberOne.raw_value then true
    else false

/-- The function `gtransform_is_only_scale_or_translation`. -/
def gtransform_is_only_scale_or_translation (t : Option GTransform) : Bool :=
  match t with
  | none => false
  | some t =>
    if t.b.raw_value ≠ GTransformNumberZero.raw_value ∨
        t.c.raw_value ≠ GTransformNumberZero.raw_value then true
    else false

/-- The function `gtransform_is_equal`. -/
def gtransform_is_equal (t1 t2 : Option GTransform) : Bool :=
  match t1, t2 with
  | some t1, some t2 => decide (memcmp t1.bytes t2.bytes sizeof_GTransform = 0)
  | _, _ => false

/-- The function `gtransform_invert`: the result and the memory it leaves.  The
copy is unconditional and the result is `false` on every path. -/
def gtransform_invert {L : Type} [DecidableEq L] (m : L → GTransform)
    (t_new t : Option L) : Bool × (L → GTransform) :=
  match t_new, t with
  | some o, some p => (false, Function.update m o (m p))
  | _, _ => (false, m)

/-! Lemmas on machine integers -/

theorem wrap32_of_isInt32 {x : Int} (h : isInt32 x) : wrap32 x = x := by
  unfold isInt32 at h
  unfold wrap32
  omega

theorem wrap64_of_isInt32 {x : Int} (h : isInt32 x) : wrap64 x = x := by
  unfold isInt32 at h
  unfold wrap64
  omega

theorem wrap32_wrap32 (x : Int) : wrap32 (wrap32 x) = wrap32 x := by
  unfold wrap32
  omega

theorem wrap32_add_wrap32 (x y : Int) : wrap32 (wrap32 x + y) = wrap32 (x + y) := by
  unfold wrap32
  omega

theorem isInt32_wrap32 (x : Int) : isInt32 (wrap32 x) := by
  unfold isInt32 wrap32
  omega

/-! Lemmas on `gtransform_concat` -/

theorem gtransform_concat_get {L : Type} [DecidableEq L] (m : L → GTransform) (o p1 p2 : L) :
    gtransform_concat m (some o) (some p1) (some p2) o = concat_spec (m p1) (m p2) := by
  by_cases h : p2 = o
  · subst h
    simp [gtransform_concat, concat_spec, set_a, set_b, set_c, set_d, set_tx, set_ty]
  · simp [gtransform_concat, concat_spec, set_a, set_b, set_c, set_d, set_tx, set_ty,
      Function.update_noteq h]

theorem gtransform_concat_frame {L : Type} [DecidableEq L] (m : L → GTransform) (o p1 p2 q : L)
    (h : q ≠ o) : gtransform_concat m (some o) (some p1) (some p2) q = m q := by
  simp [gtransform_concat, set_a, set_b, set_c, set_d, set_tx, set_ty, Function.update_noteq h]

theorem concat_fresh_eq_spec (init t1 t2 : GTransform) :
    concat_fresh init t1 t2 = concat_spec t1 t2 := by
  unfold concat_fresh
  rw [gtransform_concat_get]

/-! Lemmas on the fixed-point operations -/

theorem Fixed_S32_16_mul_raw (a b : Fixed_S32_16) (ha : isInt32 a.raw_value)
    (hb : isInt32 b.raw_value) :
    (Fixed_S32_16_mul a b).raw_value = wrap32 (a.raw_value * b.raw_value / 65536) := by
  have hlo : -(2147483648 * 2147483648 : Int) ≤ a.raw_value * b.raw_value := by
    unfold isInt32 at ha hb
    nlinarith [ha.1, ha.2, hb.1, hb.2]
  have hhi : a.raw_value * b.raw_value ≤ (2147483648 * 2147483648 : Int) := by
    unfold isInt32 at ha hb
    nlinarith [ha.1, ha.2, hb.1, hb.2]
  have hw : wrap64 (a.raw_value * b.raw_value) = a.raw_value * b.raw_value := by
    unfold wrap64
    omega
  simp only [Fixed_S32_16_mul, wrap64_of_isInt32 ha, wrap64_of_isInt32 hb, hw,
    FIXED_S32_16_PRECISION, Int.shiftRight_eq_div_pow]
  norm_num

theorem Fixed_S32_16_eq_of_raw {x y : Fixed_S32_16} (h : x.raw_value = y.raw_value) :
    x = y := by
  cases x
  cases y
  simp_all

theorem Fixed_S32_16_mul_one_left (x : Fixed_S32_16) (hx : isInt32 x.raw_value) :
    Fixed_S32_16_mul GTransformNumberOne x = x := by
  apply Fixed_S32_16_eq_of_raw
  rw [Fixed_S32_16_mul_raw GTransformNumberOne x (by decide) hx]
  have e : GTransformNumberOne.raw_value * x.raw_value / 65536 = x.raw_value := by
    simp only [GTransformNumberOne]
    omega
  rw [e, wrap32_of_isInt32 hx]

theorem Fixed_S32_16_mul_one_right (x : Fixed_S32_16) (hx : isInt32 x.raw_value) :
    Fixed_S32_16_mul x GTransformNumberOne = x := by
  apply Fixed_S32_16_eq_of_raw
  rw [Fixed_S32_16_mul_raw x GTransformNumberOne hx (by decide)]
  have e : x.raw_value * GTransformNumberOne.raw_value / 65536 = x.raw_value := by
    simp only [GTransformNumberOne]
    omega
  rw [e, wrap32_of_isInt32 hx]

theorem Fixed_S32_16_mul_zero_left (x : Fixed_S32_16) :
    Fixed_S32_16_mul GTransformNumberZero x = GTransformNumberZero := by
  apply Fixed_S32_16_eq_of_raw
  simp [Fixed_S32_16_mul, GTransformNumberZero, wrap64, wrap32]

theorem Fixed_S32_16_mul_zero_right (x : Fixed_S32_16) :
    Fixed_S32_16_mul x GTransformNumberZero = GTransformNumberZero := by
  apply Fixed_S32_16_eq_of_raw
  simp [Fixed_S32_16_mul, GTransformNumberZero, wrap64, wrap32]

theorem isInt32_mul (a b : Fixed_S32_16) : isInt32 (Fixed_S32_16_mul a b).raw_value :=
  isInt32_wrap32 _

theorem Fixed_S32_16_add_zero_right (x : Fixed_S32_16) (hx : isInt32 x.raw_value) :
    Fixed_S32_16_add x GTransformNumberZero = x := by
  apply Fixed_S32_16_eq_of_raw
  simp [Fixed_S32_16_add, GTransformNumberZero, wrap32_of_isInt32 hx]

theorem Fixed_S32_16_add_zero_left (x : Fixed_S32_16) (hx : isInt32 x.raw_value) :
    Fixed_S32_16_add GTransformNumberZero x = x := by
  apply Fixed_S32_16_eq_of_raw
  simp [Fixed_S32_16_add, GTransformNumberZero, wrap32_of_isInt32 hx]

theorem Fixed_S32_16_add3_zero_zero (x : Fixed_S32_16) (hx : isInt32 x.raw_value) :
    Fixed_S32_16_add3 GTransformNumberZero GTransformNumberZero x = x := by
  apply Fixed_S32_16_eq_of_raw
  have h0 : wrap32 0 = 0 := by decide
  simp [Fixed_S32_16_add3, GTransformNumberZero, h0, wrap32_of_isInt32 hx]

theorem Fixed_S32_16_add3_right_zeros (x : Fixed_S32_16) (hx : isInt32 x.raw_value) :
    Fixed_S32_16_add3 x GTransformNumberZero GTransformNumberZero = x := by
  apply Fixed_S32_16_eq_of_raw
  simp [Fixed_S32_16_add3, GTransformNumberZero, wrap32_of_isInt32 hx]

theorem Fixed_S32_16_add3_zero_mid (x : Fixed_S32_16) (hx : isInt32 x.raw_value) :
    Fixed_S32_16_add3 GTransformNumberZero x GTransformNumberZero = x := by
  apply Fixed_S32_16_eq_of_raw
  simp [Fixed_S32_16_add3, GTransformNumberZero, wrap32_of_isInt32 hx]

/-! Composition -/

/-- C1: for every memory and all present references (aliased or not),
`gtransform_concat(out, t1, t2)` leaves in `out` the row-vector product
`t1 * t2` of the values `t1` and `t2` held before the call: every coefficient is
the wrapping 32-bit sum of `Fixed_S32_16_mul` products given by the formula. -/
theorem gtransform_concat_formula {L : Type} [DecidableEq L] (m : L → GTransform)
    (o p1 p2 : L) :
    (gtransform_concat m (some o) (some p1) (some p2) o).a.raw_value
        = wrap32 ((Fixed_S32_16_mul (m p1).a (m p2).a).raw_value
            + (Fixed_S32_16_mul (m p1).b (m p2).c).raw_value) ∧
    (gtransform_concat m (some o) (some p1) (some p2) o).b.raw_value
        = wrap32 ((Fixed_S32_16_mul (m p1).a (m p2).b).raw_value
            + (Fixed_S32_16_mul (m p1).b (m p2).d).raw_value) ∧
    (gtransform_concat m (some o) (some p1) (some p2) o).c.raw_value
        = wrap32 ((Fixed_S32_16_mul (m p1).c (m p2).a).raw_value
            + (Fixed_S32_16_mul (m p1).d (m p2).c).raw_value) ∧
    (gtransform_concat m (some o) (some p1) (some p2) o).d.raw_value
        = wrap32 ((Fixed_S32_16_mul (m p1).c (m p2).b).raw_value
            + (Fixed_S32_16_mul (m p1).d (m p2).d).raw_value) ∧
    (gtransform_concat m (some o) (some p1) (some p2) o).tx.raw_value
        = wrap32 ((Fixed_S32_16_mul (m p1).tx (m p2).a).raw_value
            + (Fixed_S32_16_mul (m p1).ty (m p2).c).raw_value + (m p2).tx.raw_value) ∧
    (gtransform_concat m (some o) (some p1) (some p2) o).ty.raw_value
        = wrap32 ((Fixed_S32_16_mul (m p1).tx (m p2).b).raw_value
            + (Fixed_S32_16_mul (m p1).ty (m p2).d).raw_value + (m p2).ty.raw_value) := by
  rw [gtransform_concat_get]
  simp [concat_spec, Fixed_S32_16_add, Fixed_S32_16_add3, wrap32_add_wrap32]

theorem concat_spec_identity_left (T : GTransform) (hT : T.valid) :
    concat_spec GTransformIdentity T = T := by
  obtain ⟨ha, hb, hc, hd, htx, hty⟩ := hT
  simp only [concat_spec, GTransformIdentity, Fixed_S32_16_mul_one_left _ ha,
    Fixed_S32_16_mul_one_left _ hb, Fixed_S32_16_mul_one_left _ hc,
    Fixed_S32_16_mul_one_left _ hd, Fixed_S32_16_mul_zero_left,
    Fixed_S32_16_add_zero_right _ ha, Fixed_S32_16_add_zero_right _ hb,
    Fixed_S32_16_add_zero_left _ hc, Fixed_S32_16_add_zero_left _ hd,
    Fixed_S32_16_add3_zero_zero _ htx, Fixed_S32_16_add3_zero_zero _ hty]

theorem concat_spec_identity_right (T : GTransform) (hT : T.valid) :
    concat_spec T GTransformIdentity = T := by
  obtain ⟨ha, hb, hc, hd, htx, hty⟩ := hT
  simp only [concat_spec, GTransformIdentity, Fixed_S32_16_mul_one_right _ ha,
    Fixed_S32_16_mul_one_right _ hb, Fixed_S32_16_mul_one_right _ hc,
    Fixed_S32_16_mul_one_right _ hd, Fixed_S32_16_mul_one_right _ htx,
    Fixed_S32_16_mul_one_right _ hty, Fixed_S32_16_mul_zero_right,
    Fixed_S32_16_add_zero_right _ ha, Fixed_S32_16_add_zero_left _ hb,
    Fixed_S32_16_add_zero_right _ hc, Fixed_S32_16_add_zero_left _ hd,
    Fixed_S32_16_add3_right_zeros _ htx, Fixed_S32_16_add3_zero_mid _ hty]

/-- C3: the identity transform is an exact two-sided unit of
`gtransform_concat`: for every transform `T` (six `int32_t` coefficients),
`concat(Identity, T)` and `concat(T, Identity)` equal `T`. -/
theorem gtransform_concat_identity (init T : GTransform) (hT : T.valid) :
    concat_fresh init GTransformIdentity T = T ∧
    concat_fresh init T GTransformIdentity = T := by
  rw [concat_fresh_eq_spec, concat_fresh_eq_spec]
  exact ⟨concat_spec_identity_left T hT, concat_spec_identity_right T hT⟩

/-- C3 at a concrete transform with fractional and negative coefficients. -/
theorem gtransform_concat_identity_witness :
    GTransform.valid ⟨⟨98304⟩, ⟨-32768⟩, ⟨7⟩, ⟨-65536⟩, ⟨655360⟩, ⟨-3⟩⟩ ∧
    (concat_fresh GTransformIdentity GTransformIdentity
        ⟨⟨98304⟩, ⟨-32768⟩, ⟨7⟩, ⟨-65536⟩, ⟨655360⟩, ⟨-3⟩⟩
      = ⟨⟨98304⟩, ⟨-32768⟩, ⟨7⟩, ⟨-65536⟩, ⟨655360⟩, ⟨-3⟩⟩ ∧
    concat_fresh GTransformIdentity ⟨⟨98304⟩, ⟨-32768⟩, ⟨7⟩, ⟨-65536⟩, ⟨655360⟩, ⟨-3⟩⟩
        GTransformIdentity
      = ⟨⟨98304⟩, ⟨-32768⟩, ⟨7⟩, ⟨-65536⟩, ⟨655360⟩, ⟨-3⟩⟩) :=
  ⟨by decide, gtransform_concat_identity GTransformIdentity
    ⟨⟨98304⟩, ⟨-32768⟩, ⟨7⟩, ⟨-65536⟩, ⟨655360⟩, ⟨-3⟩⟩ (by decide)⟩

/-- C4: when the output of `gtransform_concat` is the same object as `t1`, the
same object as `t2`, or the same object as both, the call leaves in it exactly
what a call with a separate output computes from the values `t1` and `t2` held
before the call. -/
theorem gtransform_concat_alias {L : Type} [DecidableEq L] (m : L → GTransform)
    (init : GTransform) (p1 p2 : L) :
    gtransform_concat m (some p1) (some p1) (some p2) p1 = concat_fresh init (m p1) (m p2) ∧
    gtransform_concat m (some p2) (some p1) (some p2) p2 = concat_fresh init (m p1) (m p2) ∧
    gtransform_concat m (some p1) (some p1) (some p1) p1 = concat_fresh init (m p1) (m p1) := by
  simp only [gtransform_concat_get, concat_fresh_eq_spec, and_self]

/-- C5: `gtransform_concat` is not commutative: for `T1 = Translation(10, 0)` and
`T2` the quarter turn `a = 0, b = -1, c = 1, d = 0, tx = ty = 0`, the two orders
differ in both translation coefficients. -/
theorem gtransform_concat_not_commutative (init : GTransform) :
    (concat_fresh init
        (GTransformTranslation (GTransformNumberFromNumber 10) (GTransformNumberFromNumber 0))
        ⟨GTransformNumberFromNumber 0, GTransformNumberFromNumber (-1),
          GTransformNumberFromNumber 1, GTransformNumberFromNumber 0,
          GTransformNumberFromNumber 0, GTransformNumberFromNumber 0⟩
      = ⟨⟨0⟩, ⟨-65536⟩, ⟨65536⟩, ⟨0⟩, ⟨0⟩, ⟨-655360⟩⟩) ∧
    (concat_fresh init
        ⟨GTransformNumberFromNumber 0, GTransformNumberFromNumber (-1),
          GTransformNumberFromNumber 1, GTransformNumberFromNumber 0,
          GTransformNumberFromNumber 0, GTransformNumberFromNumber 0⟩
        (GTransformTranslation (GTransformNumberFromNumber 10) (GTransformNumberFromNumber 0))
      = ⟨⟨0⟩, ⟨-65536⟩, ⟨65536⟩, ⟨0⟩, ⟨655360⟩, ⟨0⟩⟩) ∧
    concat_fresh init
        (GTransformTranslation (GTransformNumberFromNumber 10) (GTransformNumberFromNumber 0))
        ⟨GTransformNumberFromNumber 0, GTransformNumberFromNumber (-1),
          GTransformNumberFromNumber 1, GTransformNumberFromNumber 0,
          GTransformNumberFromNumber 0, GTransformNumberFromNumber 0⟩
      ≠ concat_fresh init
        ⟨GTransformNumberFromNumber 0, GTransformNumberFromNumber (-1),
          GTransformNumberFromNumber 1, GTransformNumberFromNumber 0,
          GTransformNumberFromNumber 0, GTransformNumberFromNumber 0⟩
        (GTransformTranslation (GTransformNumberFromNumber 10)
          (GTransformNumberFromNumber 0)) := by
  simp only [concat_fresh_eq_spec]
  decide

/-! Application to points -/

theorem wrap16_add3 (x y z : Int) :
    wrap16 (wrap16 (wrap32 (wrap32 (x + y) + z))) = wrap16 (x + y + z) := by
  unfold wrap16 wrap32
  omega

/-- C2: for every integer point and every present transform, `gpoint_transform`
returns the precise point `[x y 1] * M`: raw x is the wrapping 16-bit sum of the
mixed products of the converted coordinates with `a`, `c` and of 1.0 with `tx`,
raw y the same with `b`, `d`, `ty`. -/
theorem gpoint_transform_formula (point : GPoint) (t : GTransform) :
    (gpoint_transform point (some t)).x.raw_value
      = wrap16 ((Fixed_S16_3_S32_16_mul (GPointPreciseFromGPoint point).x t.a).raw_value
          + (Fixed_S16_3_S32_16_mul (GPointPreciseFromGPoint point).y t.c).raw_value
          + (Fixed_S16_3_S32_16_mul FIXED_S16_3_ONE t.tx).raw_value) ∧
    (gpoint_transform point (some t)).y.raw_value
      = wrap16 ((Fixed_S16_3_S32_16_mul (GPointPreciseFromGPoint point).x t.b).raw_value
          + (Fixed_S16_3_S32_16_mul (GPointPreciseFromGPoint point).y t.d).raw_value
          + (Fixed_S16_3_S32_16_mul FIXED_S16_3_ONE t.ty).raw_value) := by
  simp only [gpoint_transform, Fixed_S16_3_add3, wrap16_add3, and_self]

/-! Scaling and translating a transform -/

theorem gtransform_scale_get {L : Type} [DecidableEq L] (m : L → GTransform) (o p : L)
    (sx sy : GTransformNumber) :
    gtransform_scale m (some o) (some p) sx sy o
      = { a := Fixed_S32_16_mul sx (m p).a, b := Fixed_S32_16_mul sx (m p).b,
          c := Fixed_S32_16_mul sy (m p).c, d := Fixed_S32_16_mul sy (m p).d,
          tx := (m p).tx, ty := (m p).ty } := by
  by_cases h : o = p
  · subst h
    simp [gtransform_scale, set_a, set_b, set_c, set_d]
  · have h2 : p ≠ o := fun e => h e.symm
    simp [gtransform_scale, set_a, set_b, set_c, set_d, h, Function.update_noteq h2]

theorem gtransform_scale_frame {L : Type} [DecidableEq L] (m : L → GTransform) (o p q : L)
    (sx sy : GTransformNumber) (h : q ≠ o) :
    gtransform_scale m (some o) (some p) sx sy q = m q := by
  by_cases e : o = p
  · simp [gtransform_scale, set_a, set_b, set_c, set_d, e, Function.update_noteq (e ▸ h)]
  · simp [gtransform_scale, set_a, set_b, set_c, set_d, e, Function.update_noteq h]

theorem gtransform_translate_get {L : Type} [DecidableEq L] (m : L → GTransform) (o p : L)
    (tx ty : GTransformNumber) :
    gtransform_translate m (some o) (some p) tx ty o
      = { a := (m p).a, b := (m p).b, c := (m p).c, d := (m p).d,
          tx := Fixed_S32_16_add3 (Fixed_S32_16_mul tx (m p).a)
            (Fixed_S32_16_mul ty (m p).c) (m p).tx,
          ty := Fixed_S32_16_add3 (Fixed_S32_16_mul tx (m p).b)
            (Fixed_S32_16_mul ty (m p).d) (m p).ty } := by
  by_cases h : o = p
  · subst h
    simp [gtransform_translate, set_tx, set_ty]
  · have h2 : p ≠ o := fun e => h e.symm
    simp [gtransform_translate, set_tx, set_ty, h, Function.update_noteq h2]

/-- C6: for every transform `t` (six `int32_t` coefficients) and all factors,
`gtransform_scale(out, t, sx, sy)` leaves in `out` (aliased with `t` or not) the
transform `concat(Scale(sx, sy), t)`: `a`, `b` are multiplied by `sx`, `c`, `d`
by `sy`, and `tx`, `ty` are those of `t`. -/
theorem gtransform_scale_eq_concat {L : Type} [DecidableEq L] (m : L → GTransform)
    (init : GTransform) (o p : L) (sx sy : GTransformNumber) (ht : (m p).valid) :
    gtransform_scale m (some o) (some p) sx sy o
      = concat_fresh init (GTransformScale sx sy) (m p) ∧
    gtransform_scale m (some o) (some p) sx sy o
      = { a := Fixed_S32_16_mul sx (m p).a, b := Fixed_S32_16_mul sx (m p).b,
          c := Fixed_S32_16_mul sy (m p).c, d := Fixed_S32_16_mul sy (m p).d,
          tx := (m p).tx, ty := (m p).ty } := by
  obtain ⟨_, _, _, _, htx, hty⟩ := ht
  refine ⟨?_, gtransform_scale_get m o p sx sy⟩
  rw [gtransform_scale_get, concat_fresh_eq_spec]
  simp only [concat_spec, GTransformScale, Fixed_S32_16_mul_zero_left,
    Fixed_S32_16_add_zero_right _ (isInt32_mul _ _),
    Fixed_S32_16_add_zero_left _ (isInt32_mul _ _),
    Fixed_S32_16_add3_zero_zero _ htx, Fixed_S32_16_add3_zero_zero _ hty]

/-- C7: for every transform `t` (six `int32_t` coefficients) and all offsets,
`gtransform_translate(out, t, tx, ty)` leaves in `out` (aliased with `t` or not)
the transform `concat(Translation(tx, ty), t)`: `a`, `b`, `c`, `d` are those of
`t`, and the translation is `tx*a + ty*c + t.tx`, `tx*b + ty*d + t.ty`. -/
theorem gtransform_translate_eq_concat {L : Type} [DecidableEq L] (m : L → GTransform)
    (init : GTransform) (o p : L) (tx ty : GTransformNumber) (ht : (m p).valid) :
    gtransform_translate m (some o) (some p) tx ty o
      = concat_fresh init (GTransformTranslation tx ty) (m p) ∧
    gtransform_translate m (some o) (some p) tx ty o
      = { a := (m p).a, b := (m p).b, c := (m p).c, d := (m p).d,
          tx := Fixed_S32_16_add3 (Fixed_S32_16_mul tx (m p).a)
            (Fixed_S32_16_mul ty (m p).c) (m p).tx,
          ty := Fixed_S32_16_add3 (Fixed_S32_16_mul tx (m p).b)
            (Fixed_S32_16_mul ty (m p).d) (m p).ty } := by
  obtain ⟨ha, hb, hc, hd, _, _⟩ := ht
  refine ⟨?_, gtransform_translate_get m o p tx ty⟩
  rw [gtransform_translate_get, concat_fresh_eq_spec]
  simp only [concat_spec, GTransformTranslation, Fixed_S32_16_mul_zero_left,
    Fixed_S32_16_mul_one_left _ ha, Fixed_S32_16_mul_one_left _ hb,
    Fixed_S32_16_mul_one_left _ hc, Fixed_S32_16_mul_one_left _ hd,
    Fixed_S32_16_add_zero_right _ ha, Fixed_S32_16_add_zero_right _ hb,
    Fixed_S32_16_add_zero_left _ hc, Fixed_S32_16_add_zero_left _ hd]

/-- C8: the in-place call `gtransform_scale(t, t, sx, sy)` leaves every object
other than the temporary as the sequence `gtransform_scale(tmp, t, sx, sy);
t = tmp` does; in particular `t` holds the same transform. -/
theorem gtransform_scale_in_place {L : Type} [DecidableEq L] (m : L → GTransform)
    (p tmp : L) (sx sy : GTransformNumber) (htmp : tmp ≠ p) :
    ∀ q, q ≠ tmp →
      gtransform_scale m (some p) (some p) sx sy q
        = Function.update (gtransform_scale m (some tmp) (some p) sx sy) p
            (gtransform_scale m (some tmp) (some p) sx sy tmp) q := by
  intro q hq
  by_cases e : q = p
  · subst e
    rw [Function.update_same, gtransform_scale_get, gtransform_scale_get]
  · rw [Function.update_noteq e, gtransform_scale_frame _ _ _ _ _ _ e,
      gtransform_scale_frame _ _ _ _ _ _ hq]

/-- C6 at a transform with shear and translation, output aliased with input,
factors 2.0 and 0.5. -/
theorem gtransform_scale_eq_concat_witness :
    GTransform.valid ⟨⟨98304⟩, ⟨-32768⟩, ⟨7⟩, ⟨-65536⟩, ⟨655360⟩, ⟨-3⟩⟩ ∧
    gtransform_scale (fun _ : Nat => ⟨⟨98304⟩, ⟨-32768⟩, ⟨7⟩, ⟨-65536⟩, ⟨655360⟩, ⟨-3⟩⟩)
        (some 0) (some 0) ⟨131072⟩ ⟨32768⟩ 0
      = concat_fresh GTransformIdentity (GTransformScale ⟨131072⟩ ⟨32768⟩)
          ⟨⟨98304⟩, ⟨-32768⟩, ⟨7⟩, ⟨-65536⟩, ⟨655360⟩, ⟨-3⟩⟩ :=
  ⟨by decide,
    (gtransform_scale_eq_concat
      (fun _ : Nat => ⟨⟨98304⟩, ⟨-32768⟩, ⟨7⟩, ⟨-65536⟩, ⟨655360⟩, ⟨-3⟩⟩)
      GTransformIdentity 0 0 ⟨131072⟩ ⟨32768⟩ (by decide)).1⟩

/-- C7 at a transform with shear and translation, output aliased with input,
offsets 10.0 and -2.5. -/
theorem gtransform_translate_eq_concat_witness :
    GTransform.valid ⟨⟨98304⟩, ⟨-32768⟩, ⟨7⟩, ⟨-65536⟩, ⟨655360⟩, ⟨-3⟩⟩ ∧
    gtransform_translate (fun _ : Nat => ⟨⟨98304⟩, ⟨-32768⟩, ⟨7⟩, ⟨-65536⟩, ⟨655360⟩, ⟨-3⟩⟩)
        (some 0) (some 0) ⟨655360⟩ ⟨-163840⟩ 0
      = concat_fresh GTransformIdentity (GTransformTranslation ⟨655360⟩ ⟨-163840⟩)
          ⟨⟨98304⟩, ⟨-32768⟩, ⟨7⟩, ⟨-65536⟩, ⟨655360⟩, ⟨-3⟩⟩ :=
  ⟨by decide,
    (gtransform_translate_eq_concat
      (fun _ : Nat => ⟨⟨98304⟩, ⟨-32768⟩, ⟨7⟩, ⟨-65536⟩, ⟨655360⟩, ⟨-3⟩⟩)
      GTransformIdentity 0 0 ⟨655360⟩ ⟨-163840⟩ (by decide)).1⟩

/-- C8 with `t` at location 0 and the temporary at location 1. -/
theorem gtransform_scale_in_place_witness :
    (1 : Nat) ≠ 0 ∧ (0 : Nat) ≠ 1 ∧
    gtransform_scale (fun _ : Nat => ⟨⟨98304⟩, ⟨-32768⟩, ⟨7⟩, ⟨-65536⟩, ⟨655360⟩, ⟨-3⟩⟩)
        (some 0) (some 0) ⟨131072⟩ ⟨32768⟩ 0
      = Function.update
          (gtransform_scale
            (fun _ : Nat => ⟨⟨98304⟩, ⟨-32768⟩, ⟨7⟩, ⟨-65536⟩, ⟨655360⟩, ⟨-3⟩⟩)
            (some 1) (some 0) ⟨131072⟩ ⟨32768⟩) 0
          (gtransform_scale
            (fun _ : Nat => ⟨⟨98304⟩, ⟨-32768⟩, ⟨7⟩, ⟨-65536⟩, ⟨655360⟩, ⟨-3⟩⟩)
            (some 1) (some 0) ⟨131072⟩ ⟨32768⟩ 1) 0 :=
  ⟨by decide, by decide,
    gtransform_scale_in_place
      (fun _ : Nat => ⟨⟨98304⟩, ⟨-32768⟩, ⟨7⟩, ⟨-65536⟩, ⟨655360⟩, ⟨-3⟩⟩)
      0 1 ⟨131072⟩ ⟨32768⟩ (by decide) 0 (by decide)⟩

/-! Rotation -/

theorem wrap64_of_bound {x : Int} (hlo : -9223372036854775808 ≤ x)
    (hhi : x < 9223372036854775808) : wrap64 x = x := by
  unfold wrap64
  omega

theorem natAbs_tdiv_le (a b : Int) : (Int.tdiv a b).natAbs ≤ a.natAbs := by
  rw [Int.natAbs_tdiv]
  exact Nat.div_le_self _ _

theorem rescale_no_overflow (v r : Int) (hv : isInt32 v) (hr : isInt32 r) :
    wrap64 (Int.tdiv (wrap64 (wrap64 (wrap32 v) * wrap64 GTransformNumberOne.raw_value))
        (wrap64 r))
      = Int.tdiv (v * 65536) r ∧
    wrap64 (-(Int.tdiv (v * 65536) r)) = -(Int.tdiv (v * 65536) r) := by
  have h1 : wrap64 GTransformNumberOne.raw_value = 65536 := by decide
  have hb := natAbs_tdiv_le (v * 65536) r
  have hv2 := hv
  unfold isInt32 at hv2
  have hq : -9223372036854775808 < Int.tdiv (v * 65536) r ∧
      Int.tdiv (v * 65536) r < 9223372036854775808 := by omega
  have hp : wrap64 (v * 65536) = v * 65536 := wrap64_of_bound (by omega) (by omega)
  rw [wrap32_of_isInt32 hv, wrap64_of_isInt32 hv, wrap64_of_isInt32 hr, h1, hp]
  exact ⟨wrap64_of_bound (by omega) (by omega), wrap64_of_bound (by omega) (by omega)⟩

/-- C9: `gtransform_init_rotation(0)` is the identity (raw `a = d = 65536`, the
rest 0) whatever the lookups are; for an angle other than 0, with `int32_t`
lookup results, `a = d` is the narrowing to 32 bits of the truncating quotient
`(cos_lookup(angle) * 65536) / TRIG_MAX_RATIO`, `c` that of the sine, `b` that of
the negated sine quotient, and `tx = ty = 0`; no 64-bit step overflows. -/
theorem gtransform_init_rotation_spec (trig : Trig) (angle : Int) :
    (angle = 0 →
      gtransform_init_rotation trig angle = GTransformIdentity ∧
      gtransform_init_rotation trig angle = ⟨⟨65536⟩, ⟨0⟩, ⟨0⟩, ⟨65536⟩, ⟨0⟩, ⟨0⟩⟩) ∧
    (angle ≠ 0 → isInt32 (trig.cos_lookup angle) → isInt32 (trig.sin_lookup angle) →
      isInt32 trig.TRIG_MAX_RATIO →
      gtransform_init_rotation trig angle
        = ⟨⟨wrap32 (Int.tdiv (trig.cos_lookup angle * 65536) trig.TRIG_MAX_RATIO)⟩,
           ⟨wrap32 (-(Int.tdiv (trig.sin_lookup angle * 65536) trig.TRIG_MAX_RATIO))⟩,
           ⟨wrap32 (Int.tdiv (trig.sin_lookup angle * 65536) trig.TRIG_MAX_RATIO)⟩,
           ⟨wrap32 (Int.tdiv (trig.cos_lookup angle * 65536) trig.TRIG_MAX_RATIO)⟩,
           ⟨0⟩, ⟨0⟩⟩) := by
  constructor
  · intro h
    subst h
    exact ⟨rfl, rfl⟩
  · intro h hcos hsin hr
    have ec := rescale_no_overflow _ _ hcos hr
    have es := rescale_no_overflow _ _ hsin hr
    simp only [gtransform_init_rotation, h, ne_eq, not_false_eq_true, if_true, ec.1, es.1, es.2,
      GTransformNumberZero]
    rfl

/-- C9 at a quarter turn (angle `0x4000`, cosine 0, sine `0xffff` with ratio
`0xffff`) and at angle 0. -/
theorem gtransform_init_rotation_spec_witness :
    gtransform_init_rotation ⟨fun _ => 65535, fun _ => 0, 65535⟩ 0 = GTransformIdentity ∧
    gtransform_init_rotation
        ⟨fun x => if x = 16384 then 0 else 65535, fun x => if x = 16384 then 65535 else 0, 65535⟩
        16384
      = ⟨⟨0⟩, ⟨-65536⟩, ⟨65536⟩, ⟨0⟩, ⟨0⟩, ⟨0⟩⟩ :=
  ⟨((gtransform_init_rotation_spec ⟨fun _ => 65535, fun _ => 0, 65535⟩ 0).1 rfl).1,
    (gtransform_init_rotation_spec
      ⟨fun x => if x = 16384 then 0 else 65535, fun x => if x = 16384 then 65535 else 0, 65535⟩
      16384).2 (by decide) (by decide) (by decide) (by decide)⟩

/-- C10: for every memory, `gtransform_rotate(out, t, angle)` leaves in `out`
the transform `concat(Rotation(angle), t)`, also when `out` is `t` itself; for
angle 0 and a transform `t` of six `int32_t` coefficients, `out` is left equal
to `t`. -/
theorem gtransform_rotate_eq_concat {L : Type} [DecidableEq L] (trig : Trig)
    (m : L → GTransform) (init : GTransform) (o p : L) (angle : Int) :
    gtransform_rotate trig m (some o) (some p) angle o
      = concat_fresh init (gtransform_init_rotation trig angle) (m p) ∧
    gtransform_rotate trig m (some p) (some p) angle p
      = concat_fresh init (gtransform_init_rotation trig angle) (m p) ∧
    ((m p).valid → gtransform_rotate trig m (some o) (some p) 0 o = m p) := by
  have key : ∀ (x : L) (ang : Int), gtransform_rotate trig m (some x) (some p) ang x
      = concat_fresh init (gtransform_init_rotation trig ang) (m p) := by
    intro x ang
    simp only [gtransform_rotate, gtransform_concat_get, concat_fresh_eq_spec]
  refine ⟨key o angle, key p angle, ?_⟩
  intro hv
  have h0 : gtransform_init_rotation trig 0 = GTransformIdentity := rfl
  rw [key o 0, h0, concat_fresh_eq_spec]
  exact concat_spec_identity_left (m p) hv

/-- C10 at angle 0 on a transform with shear and translation, rotated in
place. -/
theorem gtransform_rotate_eq_concat_witness :
    GTransform.valid ⟨⟨98304⟩, ⟨-32768⟩, ⟨7⟩, ⟨-65536⟩, ⟨655360⟩, ⟨-3⟩⟩ ∧
    gtransform_rotate ⟨fun _ => 65535, fun _ => 0, 65535⟩
        (fun _ : Nat => ⟨⟨98304⟩, ⟨-32768⟩, ⟨7⟩, ⟨-65536⟩, ⟨655360⟩, ⟨-3⟩⟩)
        (some 0) (some 0) 0 0
      = ⟨⟨98304⟩, ⟨-32768⟩, ⟨7⟩, ⟨-65536⟩, ⟨655360⟩, ⟨-3⟩⟩ :=
  ⟨by decide,
    (gtransform_rotate_eq_concat ⟨fun _ => 65535, fun _ => 0, 65535⟩
      (fun _ : Nat => ⟨⟨98304⟩, ⟨-32768⟩, ⟨7⟩, ⟨-65536⟩, ⟨655360⟩, ⟨-3⟩⟩)
      GTransformIdentity 0 0 0).2.2 (by decide)⟩

/-! Lemmas on the 16-bit operations -/

theorem wrap16_of_isInt16 {x : Int} (h : isInt16 x) : wrap16 x = x := by
  unfold isInt16 at h
  unfold wrap16
  omega

theorem isInt16_wrap16 (x : Int) : isInt16 (wrap16 x) := by
  unfold isInt16 wrap16
  omega

theorem Fixed_S16_3_eq_of_raw {x y : Fixed_S16_3} (h : x.raw_value = y.raw_value) :
    x = y := by
  cases x
  cases y
  simp_all

/-- The mixed multiply is exact whenever the exact product is `65536 * q` for a
16-bit `q`. -/
theorem Fixed_S16_3_S32_16_mul_exact (p : Fixed_S16_3) (b : Fixed_S32_16) (q : Int)
    (h : p.raw_value * b.raw_value = 65536 * q) (hq : isInt16 q) :
    Fixed_S16_3_S32_16_mul p b = ⟨q⟩ := by
  apply Fixed_S16_3_eq_of_raw
  have hq2 := hq
  unfold isInt16 at hq2
  have hw : wrap32 (65536 * q) = 65536 * q := by
    unfold wrap32
    omega
  have hs : (65536 * q) >>> (16 : Nat) = q := by
    rw [Int.shiftRight_eq_div_pow]
    norm_num
  simp only [Fixed_S16_3_S32_16_mul, FIXED_S32_16_PRECISION, h, hw, hs, wrap16_of_isInt16 hq]

theorem Fixed_S16_3_S32_16_mul_one (p : Fixed_S16_3) (hp : isInt16 p.raw_value) :
    Fixed_S16_3_S32_16_mul p GTransformNumberOne = p := by
  have h := Fixed_S16_3_S32_16_mul_exact p GTransformNumberOne p.raw_value
    (by simp only [GTransformNumberOne]; omega) hp
  rw [h]

theorem Fixed_S16_3_S32_16_mul_zero_right (p : Fixed_S16_3) :
    Fixed_S16_3_S32_16_mul p GTransformNumberZero = ⟨0⟩ :=
  Fixed_S16_3_S32_16_mul_exact p GTransformNumberZero 0
    (by simp [GTransformNumberZero]) (by decide)

theorem Fixed_S16_3_S32_16_mul_zero_left (b : Fixed_S32_16) :
    Fixed_S16_3_S32_16_mul ⟨0⟩ b = ⟨0⟩ :=
  Fixed_S16_3_S32_16_mul_exact ⟨0⟩ b 0 (by simp) (by decide)

theorem Fixed_S16_3_add3_zero_zero (p : Fixed_S16_3) (hp : isInt16 p.raw_value) :
    Fixed_S16_3_add3 p ⟨0⟩ ⟨0⟩ = p := by
  apply Fixed_S16_3_eq_of_raw
  unfold isInt16 at hp
  simp only [Fixed_S16_3_add3, wrap16, wrap32]
  omega

theorem Fixed_S16_3_add3_zero_mid (p : Fixed_S16_3) (hp : isInt16 p.raw_value) :
    Fixed_S16_3_add3 ⟨0⟩ p ⟨0⟩ = p := by
  apply Fixed_S16_3_eq_of_raw
  unfold isInt16 at hp
  simp only [Fixed_S16_3_add3, wrap16, wrap32]
  omega

theorem Fixed_S16_3_add3_zero_last (p : Fixed_S16_3) (hp : isInt16 p.raw_value) :
    Fixed_S16_3_add3 ⟨0⟩ ⟨0⟩ p = p := by
  apply Fixed_S16_3_eq_of_raw
  unfold isInt16 at hp
  simp only [Fixed_S16_3_add3, wrap16, wrap32]
  omega

theorem wrap16_raw (p : Fixed_S16_3) (hp : isInt16 p.raw_value) :
    (⟨wrap16 p.raw_value⟩ : Fixed_S16_3) = p :=
  Fixed_S16_3_eq_of_raw (wrap16_of_isInt16 hp)

/-! Identity and absent transforms on points -/

/-- C11: for every integer point `p`, `gpoint_transform(p, NULL)` and
`gpoint_transform(p, &identity)` both return `GPointPreciseFromGPoint(p)`. -/
theorem gpoint_transform_identity (point : GPoint) :
    gpoint_transform point none = GPointPreciseFromGPoint point ∧
    gpoint_transform point (some GTransformIdentity) = GPointPreciseFromGPoint point := by
  refine ⟨rfl, ?_⟩
  have hx : isInt16 (GPointPreciseFromGPoint point).x.raw_value := isInt16_wrap16 _
  have hy : isInt16 (GPointPreciseFromGPoint point).y.raw_value := isInt16_wrap16 _
  simp only [gpoint_transform, GTransformIdentity, Fixed_S16_3_S32_16_mul_one _ hx,
    Fixed_S16_3_S32_16_mul_one _ hy, Fixed_S16_3_S32_16_mul_zero_right,
    Fixed_S16_3_add3_zero_zero _ hx, Fixed_S16_3_add3_zero_mid _ hy, wrap16_raw _ hx,
    wrap16_raw _ hy]

/-- C12: for every integer vector and every transform reference (present or
absent), `gvector_transform` has the same raw components as `gpoint_transform`
on the point with the same coordinates; with a transform present they include
the `tx`, `ty` terms, so the zero vector is moved by `Translation(5, 5)` to
`(5, 5)` (raw 40). -/
theorem gvector_transform_eq_gpoint_transform (vector : GVector) (t : Option GTransform) :
    (gvector_transform vector t).dx = (gpoint_transform ⟨vector.dx, vector.dy⟩ t).x ∧
    (gvector_transform vector t).dy = (gpoint_transform ⟨vector.dx, vector.dy⟩ t).y ∧
    (∀ u : GTransform,
      (gvector_transform vector (some u)).dx.raw_value
        = wrap16 ((Fixed_S16_3_S32_16_mul (GVectorPreciseFromGVector vector).dx u.a).raw_value
            + (Fixed_S16_3_S32_16_mul (GVectorPreciseFromGVector vector).dy u.c).raw_value
            + (Fixed_S16_3_S32_16_mul FIXED_S16_3_ONE u.tx).raw_value) ∧
      (gvector_transform vector (some u)).dy.raw_value
        = wrap16 ((Fixed_S16_3_S32_16_mul (GVectorPreciseFromGVector vector).dx u.b).raw_value
            + (Fixed_S16_3_S32_16_mul (GVectorPreciseFromGVector vector).dy u.d).raw_value
            + (Fixed_S16_3_S32_16_mul FIXED_S16_3_ONE u.ty).raw_value)) ∧
    gvector_transform ⟨0, 0⟩
        (some (GTransformTranslation (GTransformNumberFromNumber 5)
          (GTransformNumberFromNumber 5)))
      = ⟨⟨40⟩, ⟨40⟩⟩ := by
  refine ⟨?_, ?_, ?_, by decide⟩
  · cases t <;> rfl
  · cases t <;> rfl
  · intro u
    simp only [gvector_transform, Fixed_S16_3_add3, wrap16_add3, and_self]

/-! Conversion between integer and precise coordinates -/

theorem tmod_window (x : Int) (h : -8192 < x ∧ x < 8192) : Int.tmod x 8192 = x := by
  have hd : Int.tdiv x 8192 = 0 := by
    apply Int.natAbs_eq_zero.mp
    rw [Int.natAbs_tdiv]
    apply Nat.div_eq_of_lt
    have e : (8192 : Int).natAbs = 8192 := rfl
    omega
  rw [Int.tmod_def, hd]
  omega

/-- Inside the window `[-4096, 4095]` the conversion to a precise coordinate is
multiplication by 8. -/
theorem precise_of_window (x : Int) (h : -4096 ≤ x ∧ x ≤ 4095) :
    wrap16 (wrap32 (shl (Int.tmod x GPOINT_PRECISE_MAX) GPOINT_PRECISE_PRECISION)) = 8 * x := by
  have ht : Int.tmod x 8192 = x := tmod_window x (by omega)
  have e : GPOINT_PRECISE_MAX = 8192 := rfl
  have hs : shl x GPOINT_PRECISE_PRECISION = x * 8 := by
    simp only [shl, GPOINT_PRECISE_PRECISION, FIXED_S16_3_PRECISION]
    norm_num
  rw [e, ht, hs]
  unfold wrap16 wrap32
  omega

/-- Inside the window the conversion back from `8 * x` returns `x`. -/
theorem integer_of_precise (x : Int) (h : -4096 ≤ x ∧ x ≤ 4095) :
    wrap16 (wrap32 ((8 * x) >>> GPOINT_PRECISE_PRECISION)) = x := by
  have hs : (8 * x) >>> GPOINT_PRECISE_PRECISION = x := by
    simp only [GPOINT_PRECISE_PRECISION, FIXED_S16_3_PRECISION, Int.shiftRight_eq_div_pow]
    norm_num
  rw [hs]
  unfold wrap16 wrap32
  omega

/-- C13: for a scale-only transform `Scale(sx, sy)` and integer coordinates
`x`, `y` in `[-4096, 4095]`, when the exact products `x * sx / 65536` and
`y * sy / 65536` are multiples of 1/8 in `[-4096, 4096)`, that is when 8 times
them are integers `qx`, `qy` of 16 bits, `gpoint_transform` and
`gvector_transform` return exactly the raw values `qx`, `qy`. -/
theorem scale_transform_exact (sx sy : GTransformNumber) (x y qx qy : Int)
    (hx : -4096 ≤ x ∧ x ≤ 4095) (hy : -4096 ≤ y ∧ y ≤ 4095)
    (hqx : 8 * x * sx.raw_value = 65536 * qx) (hqy : 8 * y * sy.raw_value = 65536 * qy)
    (hrx : -32768 ≤ qx ∧ qx < 32768) (hry : -32768 ≤ qy ∧ qy < 32768) :
    gpoint_transform ⟨x, y⟩ (some (GTransformScale sx sy)) = ⟨⟨qx⟩, ⟨qy⟩⟩ ∧
    gvector_transform ⟨x, y⟩ (some (GTransformScale sx sy)) = ⟨⟨qx⟩, ⟨qy⟩⟩ := by
  have ix : isInt16 qx := hrx
  have iy : isInt16 qy := hry
  have mx : Fixed_S16_3_S32_16_mul ⟨8 * x⟩ sx = ⟨qx⟩ :=
    Fixed_S16_3_S32_16_mul_exact ⟨8 * x⟩ sx qx hqx ix
  have my : Fixed_S16_3_S32_16_mul ⟨8 * y⟩ sy = ⟨qy⟩ :=
    Fixed_S16_3_S32_16_mul_exact ⟨8 * y⟩ sy qy hqy iy
  have ax : Fixed_S16_3_add3 ⟨qx⟩ ⟨0⟩ ⟨0⟩ = ⟨qx⟩ := Fixed_S16_3_add3_zero_zero ⟨qx⟩ ix
  have ay : Fixed_S16_3_add3 ⟨0⟩ ⟨qy⟩ ⟨0⟩ = ⟨qy⟩ := Fixed_S16_3_add3_zero_mid ⟨qy⟩ iy
  constructor
  · simp only [gpoint_transform, GPointPreciseFromGPoint, precise_of_window x hx,
      precise_of_window y hy, GTransformScale, mx, my, Fixed_S16_3_S32_16_mul_zero_right,
      ax, ay, wrap16_of_isInt16 ix, wrap16_of_isInt16 iy]
  · simp only [gvector_transform, GVectorPreciseFromGVector, GVECTOR_PRECISE_MAX,
      GVECTOR_PRECISE_PRECISION, precise_of_window x hx,
      precise_of_window y hy, GTransformScale, mx, my, Fixed_S16_3_S32_16_mul_zero_right,
      ax, ay, wrap16_of_isInt16 ix, wrap16_of_isInt16 iy]

/-- C13 at the two scenarios of the specification: `Scale(2, 2)` on the point
`(3, 4)` gives `(6, 8)`, and `Scale(0.5, 0.5)` on the vector `(0, 30)` gives
`(0, 15)`. -/
theorem scale_transform_exact_witness :
    gpoint_transform ⟨3, 4⟩ (some (GTransformScale ⟨131072⟩ ⟨131072⟩)) = ⟨⟨8 * 6⟩, ⟨8 * 8⟩⟩ ∧
    gvector_transform ⟨0, 30⟩ (some (GTransformScale ⟨32768⟩ ⟨32768⟩)) = ⟨⟨8 * 0⟩, ⟨8 * 15⟩⟩ :=
  ⟨(scale_transform_exact ⟨131072⟩ ⟨131072⟩ 3 4 (8 * 6) (8 * 8) (by decide) (by decide)
      (by decide) (by decide) (by decide) (by decide)).1,
    (scale_transform_exact ⟨32768⟩ ⟨32768⟩ 0 30 (8 * 0) (8 * 15) (by decide) (by decide)
      (by decide) (by decide) (by decide) (by decide)).2⟩

/-- C15: for every integer point and every integer vector whose coordinates lie
in `[-4096, 4095]`, converting to the precise form and back returns it. -/
theorem precise_roundtrip (p : GPoint) (v : GVector)
    (hpx : -4096 ≤ p.x ∧ p.x ≤ 4095) (hpy : -4096 ≤ p.y ∧ p.y ≤ 4095)
    (hvx : -4096 ≤ v.dx ∧ v.dx ≤ 4095) (hvy : -4096 ≤ v.dy ∧ v.dy ≤ 4095) :
    GPointFromGPointPrecise (GPointPreciseFromGPoint p) = p ∧
    GVectorFromGVectorPrecise (GVectorPreciseFromGVector v) = v := by
  constructor
  · simp only [GPointFromGPointPrecise, GPointPreciseFromGPoint, precise_of_window _ hpx,
      precise_of_window _ hpy, integer_of_precise _ hpx, integer_of_precise _ hpy]
  · simp only [GVectorFromGVectorPrecise, GVectorPreciseFromGVector, GVECTOR_PRECISE_MAX,
      GVECTOR_PRECISE_PRECISION, precise_of_window _ hvx, precise_of_window _ hvy,
      integer_of_precise _ hvx, integer_of_precise _ hvy]

/-- C15 at the corners of the window. -/
theorem precise_roundtrip_witness :
    GPointFromGPointPrecise (GPointPreciseFromGPoint ⟨-4096, 4095⟩) = ⟨-4096, 4095⟩ ∧
    GVectorFromGVectorPrecise (GVectorPreciseFromGVector ⟨4095, -4096⟩) = ⟨4095, -4096⟩ :=
  precise_roundtrip ⟨-4096, 4095⟩ ⟨4095, -4096⟩ (by decide) (by decide) (by decide) (by decide)

/-! Translation of the origin -/

theorem GTransformNumberFromNumber_raw (x : Int) (h : -32768 ≤ x ∧ x < 32768) :
    (GTransformNumberFromNumber x).raw_value = 65536 * x := by
  simp only [GTransformNumberFromNumber, GTransformNumberOne, wrap32]
  omega

/-- The origin is sent to the translation part of a transform whose `tx`, `ty`
are whole numbers of the window `[-4096, 4095]`. -/
theorem gpoint_transform_origin (u : GTransform) (qx qy : Int)
    (hx : u.tx.raw_value = 65536 * qx) (hy : u.ty.raw_value = 65536 * qy)
    (bx : -4096 ≤ qx ∧ qx ≤ 4095) (hby : -4096 ≤ qy ∧ qy ≤ 4095) :
    gpoint_transform ⟨0, 0⟩ (some u) = ⟨⟨8 * qx⟩, ⟨8 * qy⟩⟩ := by
  have ix : isInt16 (8 * qx) := by unfold isInt16; omega
  have iy : isInt16 (8 * qy) := by unfold isInt16; omega
  have h0 : GPointPreciseFromGPoint ⟨0, 0⟩ = ⟨⟨0⟩, ⟨0⟩⟩ := by decide
  have mx : Fixed_S16_3_S32_16_mul FIXED_S16_3_ONE u.tx = ⟨8 * qx⟩ :=
    Fixed_S16_3_S32_16_mul_exact _ _ _ (by simp only [FIXED_S16_3_ONE, hx]; omega) ix
  have my : Fixed_S16_3_S32_16_mul FIXED_S16_3_ONE u.ty = ⟨8 * qy⟩ :=
    Fixed_S16_3_S32_16_mul_exact _ _ _ (by simp only [FIXED_S16_3_ONE, hy]; omega) iy
  have ax := Fixed_S16_3_add3_zero_last ⟨8 * qx⟩ ix
  have ay := Fixed_S16_3_add3_zero_last ⟨8 * qy⟩ iy
  simp only [gpoint_transform, h0, Fixed_S16_3_S32_16_mul_zero_left, mx, my, ax, ay,
    wrap16_of_isInt16 ix, wrap16_of_isInt16 iy]

/-- The translation part of `concat(R, T)` is that of `T` when `R` has none. -/
theorem concat_spec_translation (R T : GTransform) (hRx : R.tx.raw_value = 0)
    (hRy : R.ty.raw_value = 0) (hx : isInt32 T.tx.raw_value) (hy : isInt32 T.ty.raw_value) :
    (concat_spec R T).tx = T.tx ∧ (concat_spec R T).ty = T.ty := by
  have ex : R.tx = GTransformNumberZero := Fixed_S32_16_eq_of_raw hRx
  have ey : R.ty = GTransformNumberZero := Fixed_S32_16_eq_of_raw hRy
  simp only [concat_spec, ex, ey, Fixed_S32_16_mul_zero_left,
    Fixed_S32_16_add3_zero_zero _ hx, Fixed_S32_16_add3_zero_zero _ hy, and_self]

/-- C14: for every transform `R` with `tx = ty = 0` and all integers `tx`, `ty`
in `[-4096, 4095]`, `gpoint_transform` of the origin under
`concat(R, Translation(tx, ty))` is the precise point `(tx, ty)`, raw
`(8 * tx, 8 * ty)`. -/
theorem concat_translation_origin (init R : GTransform) (tx ty : Int)
    (hRx : R.tx.raw_value = 0) (hRy : R.ty.raw_value = 0)
    (htx : -4096 ≤ tx ∧ tx ≤ 4095) (hty : -4096 ≤ ty ∧ ty ≤ 4095) :
    gpoint_transform ⟨0, 0⟩
        (some (concat_fresh init R
          (GTransformTranslation (GTransformNumberFromNumber tx)
            (GTransformNumberFromNumber ty))))
      = ⟨⟨8 * tx⟩, ⟨8 * ty⟩⟩ := by
  have rx := GTransformNumberFromNumber_raw tx (by omega)
  have ry := GTransformNumberFromNumber_raw ty (by omega)
  have h := concat_spec_translation R
    (GTransformTranslation (GTransformNumberFromNumber tx) (GTransformNumberFromNumber ty))
    hRx hRy (isInt32_wrap32 _) (isInt32_wrap32 _)
  rw [concat_fresh_eq_spec]
  apply gpoint_transform_origin _ tx ty _ _ htx hty
  · rw [h.1]
    exact rx
  · rw [h.2]
    exact ry

/-- C14 at the scenario of the specification: the quarter-turn rotation
(cosine 0, sine `0xffff` over the ratio `0xffff`) concatenated with
`Translation(100, 100)` sends `(0, 0)` to `(100, 100)`. -/
theorem concat_translation_origin_witness :
    gtransform_init_rotation
        ⟨fun x => if x = 16384 then 0 else 65535, fun x => if x = 16384 then 65535 else 0, 65535⟩
        16384
      = ⟨⟨0⟩, ⟨-65536⟩, ⟨65536⟩, ⟨0⟩, ⟨0⟩, ⟨0⟩⟩ ∧
    gpoint_transform ⟨0, 0⟩
        (some (concat_fresh GTransformIdentity
          (gtransform_init_rotation
            ⟨fun x => if x = 16384 then 0 else 65535, fun x => if x = 16384 then 65535 else 0,
              65535⟩
            16384)
          (GTransformTranslation (GTransformNumberFromNumber 100)
            (GTransformNumberFromNumber 100))))
      = ⟨⟨8 * 100⟩, ⟨8 * 100⟩⟩ :=
  ⟨by decide,
    concat_translation_origin GTransformIdentity
      (gtransform_init_rotation
        ⟨fun x => if x = 16384 then 0 else 65535, fun x => if x = 16384 then 65535 else 0, 65535⟩
        16384)
      100 100 (by decide) (by decide) (by decide) (by decide)⟩

/-! Comparison of object representations -/

theorem memcmp_eq_zero_iff (xs : List Int) :
    ∀ (ys : List Int) (n : Nat), xs.length = n → ys.length = n →
      (memcmp xs ys n = 0 ↔ xs = ys) := by
  induction xs with
  | nil =>
    intro ys n hx hy
    have hn : n = 0 := by simpa using hx.symm
    subst hn
    have hys : ys = [] := List.length_eq_zero.mp hy
    subst hys
    simp [memcmp]
  | cons x xs ih =>
    intro ys n hx hy
    cases n with
    | zero => simp at hx
    | succ k =>
      cases ys with
      | nil => simp at hy
      | cons y ys =>
        have hx2 : xs.length = k := by simpa using hx
        have hy2 : ys.length = k := by simpa using hy
        have h := ih ys k hx2 hy2
        by_cases h1 : x < y
        · have hne : x ≠ y := by omega
          simp [memcmp, h1, hne]
        · by_cases h2 : y < x
          · have hne : x ≠ y := by omega
            simp [memcmp, h1, h2, hne]
          · have he : x = y := by omega
            subst he
            simp [memcmp, h]

theorem int32_bytes_inj (x y : Int) (hx : isInt32 x) (hy : isInt32 y)
    (h : int32_bytes x = int32_bytes y) : x = y := by
  unfold isInt32 at hx hy
  simp only [int32_bytes, List.cons.injEq, and_true] at h
  omega

theorem GTransform_bytes_length (t : GTransform) : t.bytes.length = sizeof_GTransform := by
  simp [GTransform.bytes, int32_bytes, sizeof_GTransform]

theorem GTransform_bytes_inj (t1 t2 : GTransform) (h1 : t1.valid) (h2 : t2.valid)
    (h : t1.bytes = t2.bytes) : t1 = t2 := by
  obtain ⟨a1, b1, c1, d1, x1, y1⟩ := h1
  obtain ⟨a2, b2, c2, d2, x2, y2⟩ := h2
  simp only [GTransform.bytes, int32_bytes, List.cons_append, List.nil_append,
    List.cons.injEq, and_true] at h
  have ea : t1.a = t2.a := Fixed_S32_16_eq_of_raw
    (int32_bytes_inj _ _ a1 a2 (by simp only [int32_bytes, List.cons.injEq, and_true]; tauto))
  have eb : t1.b = t2.b := Fixed_S32_16_eq_of_raw
    (int32_bytes_inj _ _ b1 b2 (by simp only [int32_bytes, List.cons.injEq, and_true]; tauto))
  have ec : t1.c = t2.c := Fixed_S32_16_eq_of_raw
    (int32_bytes_inj _ _ c1 c2 (by simp only [int32_bytes, List.cons.injEq, and_true]; tauto))
  have ed : t1.d = t2.d := Fixed_S32_16_eq_of_raw
    (int32_bytes_inj _ _ d1 d2 (by simp only [int32_bytes, List.cons.injEq, and_true]; tauto))
  have ex : t1.tx = t2.tx := Fixed_S32_16_eq_of_raw
    (int32_bytes_inj _ _ x1 x2 (by simp only [int32_bytes, List.cons.injEq, and_true]; tauto))
  have ey : t1.ty = t2.ty := Fixed_S32_16_eq_of_raw
    (int32_bytes_inj _ _ y1 y2 (by simp only [int32_bytes, List.cons.injEq, and_true]; tauto))
  cases t1
  cases t2
  simp_all

/-- On transforms of six `int32_t` coefficients `memcmp` over the whole object
returns 0 exactly for equal transforms. -/
theorem memcmp_GTransform (t1 t2 : GTransform) (h1 : t1.valid) (h2 : t2.valid) :
    memcmp t1.bytes t2.bytes sizeof_GTransform = 0 ↔ t1 = t2 := by
  rw [memcmp_eq_zero_iff _ _ _ (GTransform_bytes_length t1) (GTransform_bytes_length t2)]
  constructor
  · exact GTransform_bytes_inj t1 t2 h1 h2
  · intro h
    rw [h]

theorem GTransform_eq_iff (t1 t2 : GTransform) :
    t1 = t2 ↔
      (t1.a.raw_value = t2.a.raw_value ∧ t1.b.raw_value = t2.b.raw_value ∧
       t1.c.raw_value = t2.c.raw_value ∧ t1.d.raw_value = t2.d.raw_value ∧
       t1.tx.raw_value = t2.tx.raw_value ∧ t1.ty.raw_value = t2.ty.raw_value) := by
  constructor
  · intro h
    rw [h]
    simp
  · intro ⟨ha, hb, hc, hd, hx, hy⟩
    have ea := Fixed_S32_16_eq_of_raw ha
    have eb := Fixed_S32_16_eq_of_raw hb
    have ec := Fixed_S32_16_eq_of_raw hc
    have ed := Fixed_S32_16_eq_of_raw hd
    have ex := Fixed_S32_16_eq_of_raw hx
    have ey := Fixed_S32_16_eq_of_raw hy
    cases t1
    cases t2
    simp_all

/-! Equality and classification -/

/-- C16: for present transforms of six `int32_t` coefficients,
`gtransform_is_equal` is true exactly when the six raw coefficients are pairwise
equal; it is true of a transform and itself, and false when some coefficient
differs by 1 in its raw value. -/
theorem gtransform_is_equal_iff (t1 t2 : GTransform) (h1 : t1.valid) (h2 : t2.valid) :
    (gtransform_is_equal (some t1) (some t2) = true ↔
      (t1.a.raw_value = t2.a.raw_value ∧ t1.b.raw_value = t2.b.raw_value ∧
       t1.c.raw_value = t2.c.raw_value ∧ t1.d.raw_value = t2.d.raw_value ∧
       t1.tx.raw_value = t2.tx.raw_value ∧ t1.ty.raw_value = t2.ty.raw_value)) ∧
    gtransform_is_equal (some t1) (some t1) = true ∧
    (((t2.a.raw_value - t1.a.raw_value).natAbs = 1 ∨
      (t2.b.raw_value - t1.b.raw_value).natAbs = 1 ∨
      (t2.c.raw_value - t1.c.raw_value).natAbs = 1 ∨
      (t2.d.raw_value - t1.d.raw_value).natAbs = 1 ∨
      (t2.tx.raw_value - t1.tx.raw_value).natAbs = 1 ∨
      (t2.ty.raw_value - t1.ty.raw_value).natAbs = 1) →
      gtransform_is_equal (some t1) (some t2) = false) := by
  have hiff : gtransform_is_equal (some t1) (some t2) = true ↔
      (t1.a.raw_value = t2.a.raw_value ∧ t1.b.raw_value = t2.b.raw_value ∧
       t1.c.raw_value = t2.c.raw_value ∧ t1.d.raw_value = t2.d.raw_value ∧
       t1.tx.raw_value = t2.tx.raw_value ∧ t1.ty.raw_value = t2.ty.raw_value) := by
    simp only [gtransform_is_equal, decide_eq_true_eq, memcmp_GTransform t1 t2 h1 h2]
    exact GTransform_eq_iff t1 t2
  refine ⟨hiff, ?_, ?_⟩
  · simp only [gtransform_is_equal, decide_eq_true_eq, memcmp_GTransform t1 t1 h1 h1]
  · intro hd
    cases hb : gtransform_is_equal (some t1) (some t2) with
    | false => rfl
    | true =>
      have h := hiff.mp hb
      omega

/-- C16 at a transform and its copy with `ty` one unit in the last place
higher. -/
theorem gtransform_is_equal_iff_witness :
    GTransform.valid ⟨⟨98304⟩, ⟨-32768⟩, ⟨7⟩, ⟨-65536⟩, ⟨655360⟩, ⟨-3⟩⟩ ∧
    GTransform.valid ⟨⟨98304⟩, ⟨-32768⟩, ⟨7⟩, ⟨-65536⟩, ⟨655360⟩, ⟨-2⟩⟩ ∧
    gtransform_is_equal (some ⟨⟨98304⟩, ⟨-32768⟩, ⟨7⟩, ⟨-65536⟩, ⟨655360⟩, ⟨-3⟩⟩)
      (some ⟨⟨98304⟩, ⟨-32768⟩, ⟨7⟩, ⟨-65536⟩, ⟨655360⟩, ⟨-2⟩⟩) = false :=
  ⟨by decide, by decide,
    (gtransform_is_equal_iff ⟨⟨98304⟩, ⟨-32768⟩, ⟨7⟩, ⟨-65536⟩, ⟨655360⟩, ⟨-3⟩⟩
      ⟨⟨98304⟩, ⟨-32768⟩, ⟨7⟩, ⟨-65536⟩, ⟨655360⟩, ⟨-2⟩⟩ (by decide) (by decide)).2.2
      (by decide)⟩

/-- C17: for a present transform of six `int32_t` coefficients,
`gtransform_is_identity` is true exactly when `a = d = 65536` (1.0) and
`b = c = tx = ty = 0`; it is true of the identity. -/
theorem gtransform_is_identity_iff (t : GTransform) (h : t.valid) :
    (gtransform_is_identity (some t) = true ↔
      (t.a.raw_value = 65536 ∧ t.d.raw_value = 65536 ∧ t.b.raw_value = 0 ∧
       t.c.raw_value = 0 ∧ t.tx.raw_value = 0 ∧ t.ty.raw_value = 0)) ∧
    gtransform_is_identity (some GTransformIdentity) = true := by
  have hI : GTransformIdentity.valid := by decide
  have hm := memcmp_GTransform t GTransformIdentity h hI
  have he := GTransform_eq_iff t GTransformIdentity
  simp only [GTransformIdentity, GTransformNumberOne, GTransformNumberZero] at he
  refine ⟨?_, by decide⟩
  simp only [gtransform_is_identity]
  by_cases hc : memcmp t.bytes GTransformIdentity.bytes sizeof_GTransform = 0
  · rw [if_pos hc]
    have h6 := he.mp (hm.mp hc)
    simp only [true_iff]
    omega
  · rw [if_neg hc]
    constructor
    · intro hh
      exact absurd hh (by decide)
    · intro hh
      exact absurd (hm.mpr (he.mpr (by omega))) hc

/-- C17 at the identity and at a scaling. -/
theorem gtransform_is_identity_iff_witness :
    gtransform_is_identity (some GTransformIdentity) = true ∧
    ¬ gtransform_is_identity (some (GTransformScale ⟨131072⟩ ⟨65536⟩)) = true :=
  ⟨(gtransform_is_identity_iff GTransformIdentity (by decide)).2,
    fun h => absurd
      ((gtransform_is_identity_iff (GTransformScale ⟨131072⟩ ⟨65536⟩) (by decide)).1.mp h).1
      (by decide)⟩

/-- C18: for a present transform, `gtransform_is_only_scale` is true exactly when
`b`, `c`, `tx` and `ty` are 0, whatever `a` and `d` are; it is true of
`Scale(sx, sy)` for all factors, such as `Scale(2, 3)`. -/
theorem gtransform_is_only_scale_iff (t : GTransform) :
    (gtransform_is_only_scale (some t) = true ↔
      (t.b.raw_value = 0 ∧ t.c.raw_value = 0 ∧ t.tx.raw_value = 0 ∧ t.ty.raw_value = 0)) ∧
    (∀ sx sy : GTransformNumber,
      gtransform_is_only_scale (some (GTransformScale sx sy)) = true) ∧
    gtransform_is_only_scale
      (some (GTransformScale (GTransformNumberFromNumber 2) (GTransformNumberFromNumber 3)))
      = true := by
  refine ⟨?_, ?_, by decide⟩
  · simp [gtransform_is_only_scale, GTransformNumberZero]
  · intro sx sy
    simp [gtransform_is_only_scale, GTransformScale]

/-- C19: for a present transform, `gtransform_is_only_translation` is true
exactly when `a = d = 65536` (1.0) and `b = c = 0`, whatever `tx` and `ty` are;
it is true of `Translation(tx, ty)` for all offsets, such as
`Translation(5, 5)`. -/
theorem gtransform_is_only_translation_iff (t : GTransform) :
    (gtransform_is_only_translation (some t) = true ↔
      (t.a.raw_value = 65536 ∧ t.d.raw_value = 65536 ∧ t.b.raw_value = 0 ∧
       t.c.raw_value = 0)) ∧
    (∀ tx ty : GTransformNumber,
      gtransform_is_only_translation (some (GTransformTranslation tx ty)) = true) ∧
    gtransform_is_only_translation
      (some (GTransformTranslation (GTransformNumberFromNumber 5)
        (GTransformNumberFromNumber 5)))
      = true := by
  refine ⟨?_, ?_, by decide⟩
  · simp only [gtransform_is_only_translation, GTransformNumberZero, GTransformNumberOne]
    constructor
    · intro hh
      split at hh
      · rename_i hc
        omega
      · exact absurd hh (by decide)
    · intro hh
      rw [if_pos (by omega)]
  · intro tx ty
    simp [gtransform_is_only_translation, GTransformTranslation]

/-- C20: for a present transform, `gtransform_is_only_scale_or_translation` is
true exactly when `b` or `c` is not 0, whatever `a`, `d`, `tx` and `ty` are: it
is false of the identity and true of the quarter turn. -/
theorem gtransform_is_only_scale_or_translation_iff (t : GTransform) :
    (gtransform_is_only_scale_or_translation (some t) = true ↔
      (t.b.raw_value ≠ 0 ∨ t.c.raw_value ≠ 0)) ∧
    gtransform_is_only_scale_or_translation (some GTransformIdentity) = false ∧
    gtransform_is_only_scale_or_translation
      (some ⟨⟨0⟩, ⟨-65536⟩, ⟨65536⟩, ⟨0⟩, ⟨0⟩, ⟨0⟩⟩) = true := by
  refine ⟨?_, by decide, by decide⟩
  simp only [gtransform_is_only_scale_or_translation, GTransformNumberZero]
  constructor
  · intro hh
    split at hh
    · rename_i hc
      omega
    · exact absurd hh (by decide)
  · intro hh
    rw [if_pos (by omega)]

/-! The documented meaning of `gtransform_is_only_scale_or_translation` -/

/-- C21: the header documents `gtransform_is_only_scale_or_translation` as true
when `b` and `c` are 0; the function returns false on the identity, on every
`Scale(sx, sy)` and on every `Translation(tx, ty)`, which all have
`b = c = 0`. -/
theorem gtransform_is_only_scale_or_translation_on_pure :
    gtransform_is_only_scale_or_translation (some GTransformIdentity) = false ∧
    (∀ sx sy : GTransformNumber,
      gtransform_is_only_scale_or_translation (some (GTransformScale sx sy)) = false) ∧
    (∀ tx ty : GTransformNumber,
      gtransform_is_only_scale_or_translation (some (GTransformTranslation tx ty)) = false) := by
  refine ⟨by decide, ?_, ?_⟩
  · intro sx sy
    simp [gtransform_is_only_scale_or_translation, GTransformScale]
  · intro tx ty
    simp [gtransform_is_only_scale_or_translation, GTransformTranslation]

/-! Inversion -/

/-- C23: for every memory and present references (aliased or not),
`gtransform_invert(out, t)` returns false and leaves `out` equal to `t`, all
other objects unchanged; so it does on the identity. -/
theorem gtransform_invert_stub {L : Type} [DecidableEq L] (m : L → GTransform) (o p : L) :
    (gtransform_invert m (some o) (some p)).1 = false ∧
    (gtransform_invert m (some o) (some p)).2 o = m p ∧
    (∀ q, q ≠ o → (gtransform_invert m (some o) (some p)).2 q = m q) ∧
    (m p = GTransformIdentity →
      (gtransform_invert m (some o) (some p)).1 = false ∧
      (gtransform_invert m (some o) (some p)).2 o = GTransformIdentity) := by
  refine ⟨rfl, ?_, ?_, ?_⟩
  · simp [gtransform_invert]
  · intro q hq
    simp [gtransform_invert, Function.update_noteq hq]
  · intro h
    simp [gtransform_invert, h]

/-- C23 on the identity at location 1, inverted into location 0. -/
theorem gtransform_invert_stub_witness :
    (gtransform_invert
        (fun n : Nat => if n = 1 then GTransformIdentity else GTransformScale ⟨131072⟩ ⟨131072⟩)
        (some 0) (some 1)).1 = false ∧
    (gtransform_invert
        (fun n : Nat => if n = 1 then GTransformIdentity else GTransformScale ⟨131072⟩ ⟨131072⟩)
        (some 0) (some 1)).2 0 = GTransformIdentity :=
  (gtransform_invert_stub
    (fun n : Nat => if n = 1 then GTransformIdentity else GTransformScale ⟨131072⟩ ⟨131072⟩)
    0 1).2.2.2 (by decide)

/-- C24: the header documents `gtransform_invert` as returning true with the
inverse stored when it exists.  On the identity (its own inverse) the function
returns false; on `Scale(2, 2)`, whose inverse is `Scale(0.5, 0.5)`, it returns
false and stores `Scale(2, 2)`, whose product with the input is `Scale(4, 4)`
and not the identity, while the product with `Scale(0.5, 0.5)` is. -/
theorem gtransform_invert_not_inverse :
    (gtransform_invert (fun _ : Nat => GTransformIdentity) (some 0) (some 1)).1 = false ∧
    (gtransform_invert
        (fun n : Nat => if n = 1 then GTransformScale ⟨131072⟩ ⟨131072⟩ else GTransformIdentity)
        (some 0) (some 1)).1 = false ∧
    (gtransform_invert
        (fun n : Nat => if n = 1 then GTransformScale ⟨131072⟩ ⟨131072⟩ else GTransformIdentity)
        (some 0) (some 1)).2 0 = GTransformScale ⟨131072⟩ ⟨131072⟩ ∧
    concat_fresh GTransformIdentity (GTransformScale ⟨131072⟩ ⟨131072⟩)
        ((gtransform_invert
          (fun n : Nat =>
            if n = 1 then GTransformScale ⟨131072⟩ ⟨131072⟩ else GTransformIdentity)
          (some 0) (some 1)).2 0)
      = GTransformScale ⟨262144⟩ ⟨262144⟩ ∧
    concat_fresh GTransformIdentity (GTransformScale ⟨131072⟩ ⟨131072⟩)
        (GTransformScale ⟨32768⟩ ⟨32768⟩)
      = GTransformIdentity := by
  decide

/-! Absent references -/

/-- C25: with a required reference absent, every predicate returns false,
`gtransform_invert` returns false, and `gtransform_concat`,
`gtransform_scale`, `gtransform_translate`, `gtransform_rotate` and
`gtransform_invert` leave the whole memory, hence the output object if one was
supplied, unchanged. -/
theorem absent_reference {L : Type} [DecidableEq L] (trig : Trig) (m : L → GTransform)
    (t_new t1 t2 : Option L) (u : Option GTransform) (sx sy : GTransformNumber)
    (angle : Int) :
    gtransform_is_identity none = false ∧
    gtransform_is_only_scale none = false ∧
    gtransform_is_only_translation none = false ∧
    gtransform_is_only_scale_or_translation none = false ∧
    gtransform_is_equal none u = false ∧
    gtransform_is_equal u none = false ∧
    (t_new = none ∨ t1 = none →
      (gtransform_invert m t_new t1).1 = false ∧ (gtransform_invert m t_new t1).2 = m) ∧
    (t_new = none ∨ t1 = none ∨ t2 = none → gtransform_concat m t_new t1 t2 = m) ∧
    (t_new = none ∨ t1 = none → gtransform_scale m t_new t1 sx sy = m) ∧
    (t_new = none ∨ t1 = none → gtransform_translate m t_new t1 sx sy = m) ∧
    (t_new = none ∨ t1 = none → gtransform_rotate trig m t_new t1 angle = m) := by
  refine ⟨rfl, rfl, rfl, rfl, rfl, ?_, ?_, ?_, ?_, ?_, ?_⟩
  · cases u <;> rfl
  · intro h
    rcases h with h | h
    · subst h
      exact ⟨rfl, rfl⟩
    · subst h
      cases t_new <;> exact ⟨rfl, rfl⟩
  · intro h
    rcases h with h | h | h
    · subst h
      rfl
    · subst h
      cases t_new <;> rfl
    · subst h
      cases t_new <;> cases t1 <;> rfl
  · intro h
    rcases h with h | h
    · subst h
      rfl
    · subst h
      cases t_new <;> rfl
  · intro h
    rcases h with h | h
    · subst h
      rfl
    · subst h
      cases t_new <;> rfl
  · intro h
    rcases h with h | h
    · subst h
      rfl
    · subst h
      cases t_new <;> rfl

/-- C25 with the output at location 0 supplied and an input absent. -/
theorem absent_reference_witness :
    gtransform_concat (fun _ : Nat => GTransformScale ⟨131072⟩ ⟨131072⟩)
        (some 0) none (some 1) 0 = GTransformScale ⟨131072⟩ ⟨131072⟩ ∧
    (gtransform_invert (fun _ : Nat => GTransformScale ⟨131072⟩ ⟨131072⟩)
        (some 0) none).1 = false ∧
    gtransform_rotate ⟨fun _ => 65535, fun _ => 0, 65535⟩
        (fun _ : Nat => GTransformScale ⟨131072⟩ ⟨131072⟩) (some 0) none 16384 0
      = GTransformScale ⟨131072⟩ ⟨131072⟩ :=
  ⟨congrFun
      ((absent_reference ⟨fun _ => 65535, fun _ => 0, 65535⟩
        (fun _ : Nat => GTransformScale ⟨131072⟩ ⟨131072⟩) (some 0) none (some 1) none
        ⟨0⟩ ⟨0⟩ 16384).2.2.2.2.2.2.2.1 (Or.inr (Or.inl rfl))) 0,
    ((absent_reference ⟨fun _ => 65535, fun _ => 0, 65535⟩
        (fun _ : Nat => GTransformScale ⟨131072⟩ ⟨131072⟩) (some 0) none (some 1) none
        ⟨0⟩ ⟨0⟩ 16384).2.2.2.2.2.2.1 (Or.inr rfl)).1,
    congrFun
      ((absent_reference ⟨fun _ => 65535, fun _ => 0, 65535⟩
        (fun _ : Nat => GTransformScale ⟨131072⟩ ⟨131072⟩) (some 0) none (some 1) none
        ⟨0⟩ ⟨0⟩ 16384).2.2.2.2.2.2.2.2.2.2 (Or.inr rfl)) 0⟩

/-! Width of the products -/

/-- C26: for all operands, `Fixed_S16_3_S32_16_mul(a, b)` is the 16-bit narrowing
of `floor(a.raw * b.raw / 65536)` with the exact product: the bits that the
32-bit `int` product drops do not reach the 16 bits kept.  At `a = 1.0`
(raw 8) and `b = 4096.0` (raw `2^28`) the `int` product does wrap and the result
is still the narrowing of the exact quotient. -/
theorem Fixed_S16_3_S32_16_mul_floor (a : Fixed_S16_3) (b : Fixed_S32_16) :
    (Fixed_S16_3_S32_16_mul a b).raw_value = wrap16 (a.raw_value * b.raw_value / 65536) ∧
    wrap32 (8 * 268435456) ≠ 8 * 268435456 ∧
    (Fixed_S16_3_S32_16_mul ⟨8⟩ ⟨268435456⟩).raw_value = wrap16 (8 * 268435456 / 65536) := by
  refine ⟨?_, by decide, by decide⟩
  simp only [Fixed_S16_3_S32_16_mul, FIXED_S32_16_PRECISION, Int.shiftRight_eq_div_pow]
  generalize a.raw_value * b.raw_value = p
  have e : ((2 ^ 16 : Nat) : Int) = 65536 := by norm_num
  rw [e]
  unfold wrap16 wrap32
  omega

/-- C27: for operands of 32 bits the product formed by `Fixed_S32_16_mul` lies in
the range of `int64_t`, so the 64-bit multiplication is exact, and the result
is the 32-bit narrowing of `floor(a.raw * b.raw / 65536)`. -/
theorem Fixed_S32_16_mul_floor (a b : Fixed_S32_16) (ha : isInt32 a.raw_value)
    (hb : isInt32 b.raw_value) :
    (-9223372036854775808 ≤ a.raw_value * b.raw_value ∧
      a.raw_value * b.raw_value < 9223372036854775808) ∧
    wrap64 (wrap64 a.raw_value * wrap64 b.raw_value) = a.raw_value * b.raw_value ∧
    (Fixed_S32_16_mul a b).raw_value = wrap32 (a.raw_value * b.raw_value / 65536) := by
  have hlo : -(2147483648 * 2147483648 : Int) ≤ a.raw_value * b.raw_value := by
    unfold isInt32 at ha hb
    nlinarith [ha.1, ha.2, hb.1, hb.2]
  have hhi : a.raw_value * b.raw_value ≤ (2147483648 * 2147483648 : Int) := by
    unfold isInt32 at ha hb
    nlinarith [ha.1, ha.2, hb.1, hb.2]
  refine ⟨⟨by omega, by omega⟩, ?_, Fixed_S32_16_mul_raw a b ha hb⟩
  rw [wrap64_of_isInt32 ha, wrap64_of_isInt32 hb]
  exact wrap64_of_bound (by omega) (by omega)

/-- C27 at the smallest negative product, which rounds toward negative
infinity: raw `-1` times raw `1` is raw `-1`. -/
theorem Fixed_S32_16_mul_floor_witness :
    isInt32 (-1) ∧ isInt32 1 ∧
    (Fixed_S32_16_mul ⟨-1⟩ ⟨1⟩).raw_value = wrap32 (-1 * 1 / 65536) ∧
    wrap32 (-1 * 1 / 65536) = -1 :=
  ⟨by decide, by decide, (Fixed_S32_16_mul_floor ⟨-1⟩ ⟨1⟩ (by decide) (by decide)).2.2,
    by decide⟩

/-! Rotations that are scalings -/

/-- C22, as stated, fails at the half turn: with the sine 0 and the cosine
`-0xffff` (ratio `0xffff`) at the angle `0x8000`, the rotation is
`a = d = -1.0`, `b = c = 0`, and `gtransform_is_only_scale` returns true. -/
theorem gtransform_is_only_scale_half_turn :
    (32768 : Int) ≠ 0 ∧
    gtransform_init_rotation
        ⟨fun x => if x = 32768 then -65535 else 65535, fun x => if x = 32768 then 0 else 65535,
          65535⟩
        32768
      = ⟨⟨-65536⟩, ⟨0⟩, ⟨0⟩, ⟨-65536⟩, ⟨0⟩, ⟨0⟩⟩ ∧
    gtransform_is_only_scale
        (some (gtransform_init_rotation
          ⟨fun x => if x = 32768 then -65535 else 65535,
            fun x => if x = 32768 then 0 else 65535, 65535⟩
          32768))
      = true := by
  decide

/-- C22, amended: for every angle other than 0, with a sine lookup result and a
ratio of 32 bits, `gtransform_is_only_scale` of the rotation is false exactly
when the sine coefficient, `(sin_lookup(angle) * 65536) / TRIG_MAX_RATIO`
narrowed to 32 bits, is not 0. -/
theorem gtransform_is_only_scale_rotation (trig : Trig) (angle : Int) (h : angle ≠ 0)
    (hsin : isInt32 (trig.sin_lookup angle)) (hR : isInt32 trig.TRIG_MAX_RATIO) :
    gtransform_is_only_scale (some (gtransform_init_rotation trig angle)) = false ↔
      wrap32 (Int.tdiv (trig.sin_lookup angle * 65536) trig.TRIG_MAX_RATIO) ≠ 0 := by
  have es := rescale_no_overflow _ _ hsin hR
  simp only [gtransform_is_only_scale, gtransform_init_rotation, h, ne_eq, not_false_eq_true,
    if_true, es.1, es.2, GTransformNumberZero]
  generalize Int.tdiv (trig.sin_lookup angle * 65536) trig.TRIG_MAX_RATIO = q
  by_cases hq : wrap32 q = 0
  · have hn : wrap32 (-q) = 0 := by
      unfold wrap32 at hq ⊢
      omega
    simp [hq, hn]
  · simp [hq]

/-- C22, amended, at the quarter turn (sine `0xffff` over the ratio `0xffff`). -/
theorem gtransform_is_only_scale_rotation_witness :
    gtransform_is_only_scale
        (some (gtransform_init_rotation
          ⟨fun x => if x = 16384 then 0 else 65535,
            fun x => if x = 16384 then 65535 else 0, 65535⟩
          16384))
      = false :=
  (gtransform_is_only_scale_rotation
    ⟨fun x => if x = 16384 then 0 else 65535, fun x => if x = 16384 then 65535 else 0, 65535⟩
    16384 (by decide) (by decide) (by decide)).mpr (by decide)

/-! Wraparound of the conversion and the bit-field views -/

theorem tmod_8192_bounds (x : Int) :
    -8192 < Int.tmod x 8192 ∧ Int.tmod x 8192 < 8192 ∧ (Int.tmod x 8192 - x) % 8192 = 0 := by
  have h1 := Int.tmod_def x 8192
  have hlt := Int.tmod_lt_of_pos x (by decide : (0 : Int) < 8192)
  refine ⟨?_, hlt, by omega⟩
  rcases Int.le_total 0 x with h | h
  · have := Int.tmod_nonneg 8192 h
    omega
  · have h2 := Int.tmod_def (-x) 8192
    have h3 := Int.neg_tdiv x 8192
    have h4 : 0 ≤ Int.tmod (-x) 8192 := Int.tmod_nonneg 8192 (by omega)
    have h5 := Int.tmod_lt_of_pos (-x) (by decide : (0 : Int) < 8192)
    omega

/-- The converted coordinate has fraction 0 and an integer part in the window
that is congruent to the input modulo 8192. -/
theorem precise_coord_wraps (x : Int) :
    Fixed_S16_3.fraction
        ⟨wrap16 (wrap32 (shl (Int.tmod x GPOINT_PRECISE_MAX) GPOINT_PRECISE_PRECISION))⟩ = 0 ∧
    -4096 ≤ Fixed_S16_3.integer
        ⟨wrap16 (wrap32 (shl (Int.tmod x GPOINT_PRECISE_MAX) GPOINT_PRECISE_PRECISION))⟩ ∧
    Fixed_S16_3.integer
        ⟨wrap16 (wrap32 (shl (Int.tmod x GPOINT_PRECISE_MAX) GPOINT_PRECISE_PRECISION))⟩
      ≤ 4095 ∧
    (Fixed_S16_3.integer
        ⟨wrap16 (wrap32 (shl (Int.tmod x GPOINT_PRECISE_MAX) GPOINT_PRECISE_PRECISION))⟩
      - x) % 8192 = 0 ∧
    wrap16 (wrap32 (shl (Int.tmod x GPOINT_PRECISE_MAX) GPOINT_PRECISE_PRECISION))
      = 8 * Fixed_S16_3.integer
        ⟨wrap16 (wrap32 (shl (Int.tmod x GPOINT_PRECISE_MAX) GPOINT_PRECISE_PRECISION))⟩ := by
  obtain ⟨hlo, hhi, hc⟩ := tmod_8192_bounds x
  have e : GPOINT_PRECISE_MAX = 8192 := rfl
  have hs : shl (Int.tmod x 8192) GPOINT_PRECISE_PRECISION = Int.tmod x 8192 * 8 := by
    simp only [shl, GPOINT_PRECISE_PRECISION, FIXED_S16_3_PRECISION]
    norm_num
  rw [e, hs]
  generalize Int.tmod x 8192 = r at hlo hhi hc ⊢
  simp only [Fixed_S16_3.fraction, Fixed_S16_3.integer, wrap16, wrap32]
  omega

/-- C28: for every integer coordinate, inside or outside `[-4096, 4095]`, the
conversion to a precise coordinate (of a point or of a vector) has fraction 0,
an integer part in `[-4096, 4095]` congruent to the coordinate modulo 8192, and
raw value 8 times that integer part; 4096 converts to -4096 and 5000 to
-3192. -/
theorem precise_conversion_wraps (p : GPoint) (v : GVector) :
    ((GPointPreciseFromGPoint p).x.fraction = 0 ∧
      -4096 ≤ (GPointPreciseFromGPoint p).x.integer ∧
      (GPointPreciseFromGPoint p).x.integer ≤ 4095 ∧
      ((GPointPreciseFromGPoint p).x.integer - p.x) % 8192 = 0 ∧
      (GPointPreciseFromGPoint p).x.raw_value = 8 * (GPointPreciseFromGPoint p).x.integer) ∧
    ((GPointPreciseFromGPoint p).y.fraction = 0 ∧
      -4096 ≤ (GPointPreciseFromGPoint p).y.integer ∧
      (GPointPreciseFromGPoint p).y.integer ≤ 4095 ∧
      ((GPointPreciseFromGPoint p).y.integer - p.y) % 8192 = 0 ∧
      (GPointPreciseFromGPoint p).y.raw_value = 8 * (GPointPreciseFromGPoint p).y.integer) ∧
    ((GVectorPreciseFromGVector v).dx.fraction = 0 ∧
      -4096 ≤ (GVectorPreciseFromGVector v).dx.integer ∧
      (GVectorPreciseFromGVector v).dx.integer ≤ 4095 ∧
      ((GVectorPreciseFromGVector v).dx.integer - v.dx) % 8192 = 0 ∧
      (GVectorPreciseFromGVector v).dx.raw_value
        = 8 * (GVectorPreciseFromGVector v).dx.integer) ∧
    ((GVectorPreciseFromGVector v).dy.fraction = 0 ∧
      -4096 ≤ (GVectorPreciseFromGVector v).dy.integer ∧
      (GVectorPreciseFromGVector v).dy.integer ≤ 4095 ∧
      ((GVectorPreciseFromGVector v).dy.integer - v.dy) % 8192 = 0 ∧
      (GVectorPreciseFromGVector v).dy.raw_value
        = 8 * (GVectorPreciseFromGVector v).dy.integer) ∧
    (GPointPreciseFromGPoint ⟨4096, 5000⟩).x.integer = -4096 ∧
    (GPointPreciseFromGPoint ⟨4096, 5000⟩).y.integer = -3192 :=
  ⟨precise_coord_wraps p.x, precise_coord_wraps p.y, precise_coord_wraps v.dx,
    precise_coord_wraps v.dy, by decide, by decide⟩

/-- C29: for every 16-bit raw value `r`, `r = 8 * i + f` with the integer field
`i = floor(r / 8)` in `[-4096, 4095]` and the fraction field `f = r mod 8` in
`[0, 7]`, and the conversions to an integer point or vector (`raw >> 3`) return
`i`, rounding toward negative infinity. -/
theorem Fixed_S16_3_views (r : Fixed_S16_3) (h : isInt16 r.raw_value) :
    r.raw_value = 8 * r.integer + r.fraction ∧
    r.integer = r.raw_value / 8 ∧
    (-4096 ≤ r.integer ∧ r.integer ≤ 4095) ∧
    r.fraction = r.raw_value % 8 ∧
    (0 ≤ r.fraction ∧ r.fraction ≤ 7) ∧
    GPointFromGPointPrecise ⟨r, r⟩ = ⟨r.integer, r.integer⟩ ∧
    GVectorFromGVectorPrecise ⟨r, r⟩ = ⟨r.integer, r.integer⟩ ∧
    (8 * r.integer ≤ r.raw_value ∧ r.raw_value < 8 * r.integer + 8) := by
  unfold isInt16 at h
  have hs : r.raw_value >>> GPOINT_PRECISE_PRECISION = r.raw_value / 8 := by
    simp only [GPOINT_PRECISE_PRECISION, FIXED_S16_3_PRECISION, Int.shiftRight_eq_div_pow]
    norm_num
  have hi : r.integer = r.raw_value / 8 := by
    simp only [Fixed_S16_3.integer]
    omega
  have hw : wrap16 (wrap32 (r.raw_value / 8)) = r.raw_value / 8 := by
    unfold wrap16 wrap32
    omega
  refine ⟨?_, hi, ?_, rfl, ?_, ?_, ?_, ?_⟩
  · simp only [hi, Fixed_S16_3.fraction]
    omega
  · rw [hi]
    omega
  · simp only [Fixed_S16_3.fraction]
    omega
  · simp only [GPointFromGPointPrecise, hs, hw, hi]
  · simp only [GVectorFromGVectorPrecise, GVECTOR_PRECISE_PRECISION, hs, hw, hi]
  · rw [hi]
    omega

/-- C29 at -1.125 (raw -9: integer -2, fraction 7, converts to -2) and at 1.125
(raw 9: integer 1, fraction 1, converts to 1). -/
theorem Fixed_S16_3_views_witness :
    (isInt16 (-9) ∧ Fixed_S16_3.integer ⟨-9⟩ = -2 ∧ Fixed_S16_3.fraction ⟨-9⟩ = 7 ∧
      GPointFromGPointPrecise ⟨⟨-9⟩, ⟨-9⟩⟩ = ⟨Fixed_S16_3.integer ⟨-9⟩, Fixed_S16_3.integer ⟨-9⟩⟩) ∧
    (isInt16 9 ∧ Fixed_S16_3.integer ⟨9⟩ = 1 ∧ Fixed_S16_3.fraction ⟨9⟩ = 1 ∧
      GPointFromGPointPrecise ⟨⟨9⟩, ⟨9⟩⟩ = ⟨Fixed_S16_3.integer ⟨9⟩, Fixed_S16_3.integer ⟨9⟩⟩) :=
  ⟨⟨by decide, by decide, by decide,
      (Fixed_S16_3_views ⟨-9⟩ (by decide)).2.2.2.2.2.1⟩,
    ⟨by decide, by decide, by decide,
      (Fixed_S16_3_views ⟨9⟩ (by decide)).2.2.2.2.2.1⟩⟩

end GTransformSpec
